import Mathlib

/-!
# Verification of the reddit-scraping evidence pipeline

A shallow embedding, in Lean 4, of the pure computational core of the
repository `DFATPUNK/scraping-reddit` (files `run.py` and
`scrape_reddit_agents.py`): the quantitative pattern matchers, the monetary
normalizers, the signal extractors, the two scoring strategies, and the
selection/ranking step.  Strings are modelled as `List Char` / `String`,
Python `float` as `Rat` (the numeric literals handled here are short decimal
strings, for which rational arithmetic agrees with IEEE double comparison
and with Python's shortest-repr printing on every value the theorems touch),
and Python `int` as `Int`.

Python's regular expressions are embedded as executable matchers that follow
the backtracking semantics of the concrete patterns in the source
(leftmost match, ordered alternation, greedy quantifiers); where a pattern is
only ever used as a boolean test (`RANGE_PATTERN`, the company-suffix
pattern), the backtracking choice points are enumerated explicitly, which is
equivalent for match existence.  Character classes `\d`, `\w`, `\s` and
`str.lower()` are modelled on ASCII plus the Latin-1 letters, which covers
the vocabulary of the source (English and French cue words).
-/

/-! ## Python character / string primitives -/

/-- Python `str.lower()` on one character, for ASCII and Latin-1 letters
(`À`..`Þ` map to `à`..`þ`; `×` is not a letter). -/
def pyLower (c : Char) : Char :=
  if 65 ≤ c.toNat ∧ c.toNat ≤ 90 then Char.ofNat (c.toNat + 32)
  else if 0xC0 ≤ c.toNat ∧ c.toNat ≤ 0xDE ∧ c.toNat ≠ 0xD7 then Char.ofNat (c.toNat + 32)
  else c

/-- Lowercase a whole string (Python `s.lower()`). -/
def lowerStr (s : List Char) : List Char := s.map pyLower

/-- Python regex `\d` (ASCII digits; the source never feeds non-ASCII digits). -/
def isPyDigit (c : Char) : Bool := '0' ≤ c ∧ c ≤ '9'

/-- Python regex `\s` (ASCII whitespace characters). -/
def isPyWs (c : Char) : Bool :=
  c = ' ' ∨ c = '\t' ∨ c = '\n' ∨ c = '\x0d' ∨ c = '\x0b' ∨ c = '\x0c'

/-- Python regex `\w` (word character): ASCII alphanumerics, `_`, and
Latin-1 letters (µ, ª, º, `À`..`ÿ` except `×`, `÷`). -/
def isPyWord (c : Char) : Bool :=
  ('a' ≤ c ∧ c ≤ 'z') ∨ ('A' ≤ c ∧ c ≤ 'Z') ∨ ('0' ≤ c ∧ c ≤ '9') ∨ c = '_' ∨
    c.toNat = 0xB5 ∨ c.toNat = 0xAA ∨ c.toNat = 0xBA ∨
    (0xC0 ≤ c.toNat ∧ c.toNat ≤ 0xFF ∧ c.toNat ≠ 0xD7 ∧ c.toNat ≠ 0xF7)

/-- Python substring membership `needle in hay` on character lists. -/
def containsSub (hay needle : List Char) : Bool :=
  match hay with
  | [] => needle.isEmpty
  | _ :: t => needle.isPrefixOf hay || containsSub t needle

/-- Python `hay.find(needle)`: index of the first occurrence, `none` for -1. -/
def pyFind (hay needle : List Char) : Option Nat :=
  match hay with
  | [] => if needle.isEmpty then some 0 else none
  | _ :: t =>
    if needle.isPrefixOf hay then some 0
    else (pyFind t needle).map (· + 1)

/-- Number of leading characters of `s` satisfying `p`. -/
def countLeading (p : Char → Bool) (s : List Char) : Nat :=
  match s with
  | [] => 0
  | c :: t => if p c then countLeading p t + 1 else 0

/-- Length of the run of regex-`\s` characters at the front of `s`. -/
def countWs (s : List Char) : Nat := countLeading isPyWs s

/-- Length of the run of digits at the front of `s`. -/
def digitRun (s : List Char) : Nat := countLeading isPyDigit s

/-- Python `s.strip()`: remove leading and trailing whitespace. -/
def pyStrip (s : List Char) : List Char :=
  ((s.dropWhile (isPyWs ·)).reverse.dropWhile (isPyWs ·)).reverse

/-- Helper for `pySplitWs`: `cur` is the (reversed) word being accumulated. -/
def pySplitWsAux (cur : List Char) (s : List Char) : List (List Char) :=
  match s with
  | [] => if cur.isEmpty then [] else [cur.reverse]
  | c :: t =>
    if isPyWs c then
      if cur.isEmpty then pySplitWsAux [] t else cur.reverse :: pySplitWsAux [] t
    else pySplitWsAux (c :: cur) t

/-- Python whitespace split `s.split()`: maximal non-whitespace runs. -/
def pySplitWs (s : List Char) : List (List Char) := pySplitWsAux [] s

/-- Decimal value of a digit list (all characters assumed digits). -/
def digitsVal (s : List Char) : Nat :=
  s.foldl (fun a c => a * 10 + (c.toNat - '0'.toNat)) 0

/-- Python `float(s)` restricted to the shapes the pipeline produces:
digit strings with at most one `.` (e.g. `"1200"`, `"1.5"`, `".5"`, `"5."`).
Anything else — in particular a string with two dots such as
`"1.234.567"` — raises `ValueError`, modelled as `none`.  (Signs, exponents
and `inf`/`nan` never reach `float()` in this code.) -/
def pyFloat (s : List Char) : Option Rat :=
  if s.all (fun c => isPyDigit c || c = '.') = false then none
  else if (s.filter (· = '.')).length > 1 then none
  else if (s.filter (isPyDigit ·)).length = 0 then none
  else
    let intPart := s.takeWhile (· ≠ '.')
    let fracPart := (s.dropWhile (· ≠ '.')).drop 1
    some (mkRat (digitsVal intPart * 10 ^ fracPart.length + digitsVal fracPart)
      (10 ^ fracPart.length))

/-- `q * n` for a natural scale factor, written with `mkRat` (the `Rat`
multiplication of this toolchain is `@[irreducible]`, which would block
kernel evaluation of the concrete theorems below). -/
def ratScaleNat (q : Rat) (n : Nat) : Rat := mkRat (q.num * n) q.den

/-! ## `run.py` — quantitative pattern library

`RE_MONEY` (run.py:39-52) is
`(?:(?P<currency>[$€£])\s*)?(?P<number>\d{1,3}(?:[.,]\d{3})*(?:[.,]\d+)?|\d+(?:[.,]\d+)?)\s*(?P<suffix>[kKmMbB]|million|millions|thousand|k)?\s*(?P<per>/\s*(?:h|hr|hour|day|week|mo|month|yr|year|per\s*(?:hour|day|week|month|year)))?`.

The embedding follows Python's leftmost-match / ordered-alternation / greedy
semantics.  Notes on the concrete pattern: the second `number` alternative
`\d+(?:[.,]\d+)?` is unreachable (the first one succeeds at any digit);
the `million|millions` suffix alternatives are unreachable (`m` is consumed
by the leading character class `[kKmMbB]`); everything after the `number`
group is optional, so a match attempt backtracks only inside the optional
groups, never out of a committed `number`. -/

def isCurSym (c : Char) : Bool := c = '$' ∨ c = '€' ∨ c = '£'

def isSepCh (c : Char) : Bool := c = '.' ∨ c = ','

/-- `(?:[.,]\d{3})*` — greedy repetitions of a separator plus exactly three
digits; a fourth digit stops the star after the current repetition. -/
def starThousands : List Char → Nat
  | a :: b :: c :: d :: rest =>
    if isSepCh a ∧ isPyDigit b ∧ isPyDigit c ∧ isPyDigit d then 4 + starThousands rest
    else 0
  | _ => 0

/-- `(?:[.,]\d+)?` — an optional separator followed by a greedy digit run. -/
def optFracLen (s : List Char) : Nat :=
  match s with
  | a :: rest => if isSepCh a ∧ 1 ≤ digitRun rest then 1 + digitRun rest else 0
  | [] => 0

/-- The `number` group of `RE_MONEY` (and the `amount` group of
`REVENUE_PATTERNS`, which is the same pattern):
`\d{1,3}(?:[.,]\d{3})*(?:[.,]\d+)?|\d+(?:[.,]\d+)?`.
Returns the matched characters, or `none` when no digit starts here. -/
def parseNumberGroup (s : List Char) : Option (List Char) :=
  let d := min 3 (digitRun s)
  if d = 0 then none
  else
    let g := starThousands (s.drop d)
    let f := optFracLen (s.drop (d + g))
    some (s.take (d + g + f))

/-- A match of `RE_MONEY` with its named groups (empty list = group absent). -/
structure MMatch where
  g0 : List Char
  currency : List Char
  number : List Char
  suffix : List Char
  per : List Char
deriving Repr, DecidableEq

/-- `suffix` group `[kKmMbB]|million|millions|thousand|k`: the character
class wins for any of its six letters (making `million`/`millions`
unreachable), otherwise only `thousand` can match. -/
def parseSuffixTok (s : List Char) : List Char :=
  match s with
  | c :: _ =>
    if c = 'k' ∨ c = 'K' ∨ c = 'm' ∨ c = 'M' ∨ c = 'b' ∨ c = 'B' then [c]
    else if "thousand".data.isPrefixOf s then "thousand".data
    else []
  | [] => []

/-- First alternative (in pattern order) that is a literal prefix of `s`. -/
def firstPrefixTok (alts : List (List Char)) (s : List Char) : List Char :=
  (alts.find? (fun a => a.isPrefixOf s)).getD []

/-- The unit alternation inside the `per` group of `RE_MONEY`:
`h|hr|hour|day|week|mo|month|yr|year|per\s*(?:hour|day|week|month|year)`
(ordered: `h` shadows `hr`/`hour`, `mo` shadows `month`, `yr` precedes
`year`). -/
def perUnitTok (s : List Char) : List Char :=
  let direct := firstPrefixTok (["h", "hr", "hour", "day", "week", "mo", "month", "yr", "year"].map String.data) s
  if direct.isEmpty = false then direct
  else if "per".data.isPrefixOf s then
    let w := countWs (s.drop 3)
    let inner := firstPrefixTok (["hour", "day", "week", "month", "year"].map String.data) (s.drop (3 + w))
    if inner.isEmpty then [] else "per".data ++ ((s.drop 3).take w ++ inner)
  else []

/-- The `per` group `/\s*(?:h|hr|hour|day|week|mo|month|yr|year|per\s*(?:...))`
of `RE_MONEY`; empty when the optional group does not participate. -/
def parsePerTok (s : List Char) : List Char :=
  match s with
  | '/' :: rest =>
    let w := countWs rest
    let u := perUnitTok (rest.drop w)
    if u.isEmpty then [] else '/' :: (rest.take w ++ u)
  | _ => []

/-- Attempt to match `RE_MONEY` at the start of `s` (run.py:39-52).
Fails only when no `number` group starts here (a present currency symbol
cannot be skipped: without it the symbol itself is not a digit). -/
def matchMoneyHere (s : List Char) : Option MMatch :=
  let cur : List Char :=
    match s with
    | c :: _ => if isCurSym c then [c] else []
    | [] => []
  let pre := if cur.isEmpty then 0 else 1 + countWs (s.drop 1)
  match parseNumberGroup (s.drop pre) with
  | none => none
  | some num =>
    let p1 := pre + num.length
    let w1 := countWs (s.drop p1)
    let suf := parseSuffixTok (s.drop (p1 + w1))
    let p2 := p1 + w1 + suf.length
    let w2 := countWs (s.drop p2)
    let per := parsePerTok (s.drop (p2 + w2))
    some { g0 := s.take (p2 + w2 + per.length), currency := cur, number := num,
           suffix := suf, per := per }

/-- `RE_MONEY.search`: leftmost position at which a match attempt succeeds. -/
def searchMoneyAux : List Char → Option MMatch
  | [] => none
  | c :: cs =>
    match matchMoneyHere (c :: cs) with
    | some m => some m
    | none => searchMoneyAux cs

/-- `RE_MONEY.finditer`: non-overlapping matches, scanning left to right and
resuming each time at the end of the previous match.  Fuel-indexed for
structural recursion; every match consumes at least one character, so
`length + 1` fuel (supplied by `reMoneyFinditer`) is always enough. -/
def moneyFindAux (fuel : Nat) (s : List Char) : List MMatch :=
  match fuel, s with
  | 0, _ => []
  | _ + 1, [] => []
  | f + 1, c :: cs =>
    match matchMoneyHere (c :: cs) with
    | some m => m :: moneyFindAux f (cs.drop (m.g0.length - 1))
    | none => moneyFindAux f cs

def reMoneyFinditer (s : List Char) : List MMatch := moneyFindAux (s.length + 1) s

/-! ## `run.py` — the other quantitative matchers (`re.I` patterns)

`RE_DURATION`, `RE_RATE`, `RE_COUNT`, `RE_PERCENT` (run.py:55-58) share the
shape `\b \d{1,k} (frac?) \s* unit-words \b` with the `re.I` flag.  Pattern
letters are stored lowercase and compared against lowercased text; matched
spans keep the original text.  Greedy `\d{1,k}` is implemented with its
backtracking (try the longest digit prefix first); the optional fraction
backtracks from with-fraction to without; `\d+` inside the fraction never
needs to give digits back because everything that can follow it starts with
a non-digit. -/

/-- Case-insensitive literal prefix test (`pat` given lowercase). -/
def ciPrefix : List Char → List Char → Bool
  | [], _ => true
  | _ :: _, [] => false
  | p :: ps, c :: cs => (pyLower c = p) && ciPrefix ps cs

/-- `\b` after a word character: position `k` of `s` is the end of the
string or holds a non-word character. -/
def wordEndBoundary (s : List Char) (k : Nat) : Bool :=
  match s.drop k with
  | [] => true
  | c :: _ => !isPyWord c

/-- One alternative `base` with an optional trailing `s` and then `\b`
(e.g. `hours?\b`): greedy, so `base ++ "s"` is tried before `base`. -/
def altWithS (base : List Char) (optS : Bool) (s : List Char) : Option (List Char) :=
  if optS ∧ ciPrefix (base ++ ['s']) s ∧ wordEndBoundary s (base.length + 1) then
    some (s.take (base.length + 1))
  else if ciPrefix base s ∧ wordEndBoundary s base.length then some (s.take base.length)
  else none

/-- Ordered alternation of `altWithS` alternatives: the first one that
matches (with its trailing `\b`) wins, as in Python's regex engine. -/
def firstAlt (alts : List (List Char × Bool)) (s : List Char) : Option (List Char) :=
  match alts with
  | [] => none
  | (b, o) :: rest =>
    match altWithS b o s with
    | some r => some r
    | none => firstAlt rest s

/-- `(?:[.,]\d+)?` followed by a continuation: the greedy option tries the
fraction first and falls back to the bare continuation. -/
def fracThen (tailFn : List Char → Option Nat) (s : List Char) : Option Nat :=
  let withFrac : Option Nat :=
    match s with
    | a :: rest =>
      if isSepCh a ∧ 1 ≤ digitRun rest then
        let f := 1 + digitRun rest
        (tailFn (s.drop f)).map (f + ·)
      else none
    | [] => none
  match withFrac with
  | some n => some n
  | none => tailFn s

/-- Greedy `\d{1,maxK}` with backtracking: try `k` digits for
`k = maxK, maxK-1, ..., 1`, running the continuation after each. -/
def digitsBacktrack (tailFn : List Char → Option Nat) (s : List Char) : Nat → Option (List Char)
  | 0 => none
  | k + 1 =>
    match tailFn (s.drop (k + 1)) with
    | some n => some (s.take (k + 1 + n))
    | none => digitsBacktrack tailFn s k

/-- Common frame `\b\d{1,maxD}⟨tail⟩` of the four `re.I` matchers:
`prevWord` tells whether the character before `s` is a word character
(the leading `\b` then fails, since the pattern starts with `\d`). -/
def matchNumUnitAt (maxD : Nat) (tailFn : List Char → Option Nat) (prevWord : Bool)
    (s : List Char) : Option (List Char) :=
  if prevWord then none
  else digitsBacktrack tailFn s (min maxD (digitRun s))

/-- Unit alternatives of `RE_DURATION`:
`hours?|hrs?|h|days?|d|weeks?|w|months?|mos?|mo|years?|yrs?`. -/
def durationAlts : List (List Char × Bool) :=
  [("hour".data, true), ("hr".data, true), ("h".data, false), ("day".data, true),
   ("d".data, false), ("week".data, true), ("w".data, false), ("month".data, true),
   ("mo".data, true), ("mo".data, false), ("year".data, true), ("yr".data, true)]

/-- `\s*` then the duration unit words with trailing `\b`. -/
def durationTail (s : List Char) : Option Nat :=
  let w := countWs s
  (firstAlt durationAlts (s.drop w)).map (fun u => w + u.length)

/-- `RE_MONEY`'s sibling `RE_DURATION` (run.py:55), matched at one position. -/
def matchDurationAt (prevWord : Bool) (s : List Char) : Option (List Char) :=
  matchNumUnitAt 4 (fracThen durationTail) prevWord s

/-- Unit alternatives of `RE_RATE`: `hour|hr|day|week|month|mo|year|yr`
followed by one shared optional `s`. -/
def rateAlts : List (List Char × Bool) :=
  [("hour".data, true), ("hr".data, true), ("day".data, true), ("week".data, true),
   ("month".data, true), ("mo".data, true), ("year".data, true), ("yr".data, true)]

/-- `\s*(?:per|/)\s*(?:hour|hr|day|week|month|mo|year|yr)s?\b`. -/
def rateTail (s : List Char) : Option Nat :=
  let w := countWs s
  let afterSep : Option Nat :=
    if ciPrefix "per".data (s.drop w) then some (w + 3)
    else
      match s.drop w with
      | '/' :: _ => some (w + 1)
      | _ => none
  match afterSep with
  | none => none
  | some p =>
    let w2 := countWs (s.drop p)
    (firstAlt rateAlts (s.drop (p + w2))).map (fun u => p + w2 + u.length)

/-- `RE_RATE` (run.py:56), matched at one position. -/
def matchRateAt (prevWord : Bool) (s : List Char) : Option (List Char) :=
  matchNumUnitAt 4 (fracThen rateTail) prevWord s

/-- Noun alternatives of `RE_COUNT`:
`clients?|customers?|users?|leads?|emails?|meetings?|calls?|tickets?|demos?`. -/
def countAlts : List (List Char × Bool) :=
  [("client".data, true), ("customer".data, true), ("user".data, true),
   ("lead".data, true), ("email".data, true), ("meeting".data, true),
   ("call".data, true), ("ticket".data, true), ("demo".data, true)]

/-- `\s*` then the count nouns with trailing `\b` (no fraction in `RE_COUNT`). -/
def countTail (s : List Char) : Option Nat :=
  let w := countWs s
  (firstAlt countAlts (s.drop w)).map (fun u => w + u.length)

/-- `RE_COUNT` (run.py:57), matched at one position. -/
def matchCountAt (prevWord : Bool) (s : List Char) : Option (List Char) :=
  matchNumUnitAt 4 countTail prevWord s

/-- `\s*%\b`: the `\b` after `%` (a non-word character) holds only when a
word character follows immediately, so `"50%"` at the end of a comment does
not match `RE_PERCENT`. -/
def percentTail (s : List Char) : Option Nat :=
  let w := countWs s
  match s.drop w with
  | '%' :: c :: _ => if isPyWord c then some (w + 1) else none
  | _ => none

/-- `RE_PERCENT` (run.py:58), matched at one position. -/
def matchPercentAt (prevWord : Bool) (s : List Char) : Option (List Char) :=
  matchNumUnitAt 3 (fracThen percentTail) prevWord s

/-- Generic `finditer` for the `\b`-anchored matchers: scan left to right,
threading whether the previous character is a word character, resuming after
each (never-empty) match.  Fuel-indexed as for `moneyFindAux`. -/
def findIterAux (matchAt : Bool → List Char → Option (List Char)) (fuel : Nat)
    (prevWord : Bool) (s : List Char) : List (List Char) :=
  match fuel, s with
  | 0, _ => []
  | _ + 1, [] => []
  | f + 1, c :: cs =>
    match matchAt prevWord (c :: cs) with
    | some span =>
      span :: findIterAux matchAt f (isPyWord (span.getLastD c)) (cs.drop (span.length - 1))
    | none => findIterAux matchAt f (isPyWord c) cs

def reFinditer (matchAt : Bool → List Char → Option (List Char)) (s : List Char) :
    List (List Char) :=
  findIterAux matchAt (s.length + 1) false s

/-! ## `run.py` — keyword vocabularies, `has_quantitative`, `score_comment` -/

def KEYWORDS_SELL : List String :=
  ["client", "clients", "customer", "customers", "sold", "selling", "sell",
   "paying", "paid", "charge", "charged", "pricing", "price", "subscription",
   "contract", "invoice", "retainer", "freelance", "agency", "MRR", "ARR"]

def KEYWORDS_AGENT : List String :=
  ["agent", "ai agent", "automation", "autonomous", "bot", "assistant",
   "workflow", "rpa", "gpt", "langchain", "autogen"]

def MARKET_HINTS : List String :=
  ["ecom", "e-commerce", "shopify", "woocommerce", "amazon seller", "smb",
   "dentists", "lawyers", "real estate", "realtors", "restaurants",
   "plumbers", "roofers", "contractors", "saas", "startups", "enterprise",
   "agencies", "healthcare", "doctors", "clinics", "education", "coaches",
   "course creators", "marketing", "sales", "support", "customer support",
   "helpdesk", "hotel", "hospitality", "travel", "logistics"]

/-- `any(k in t for k in cues)` — case-sensitive membership of any cue. -/
def anyCueIn (t : List Char) (cues : List String) : Bool :=
  cues.any (fun c => containsSub t c.data)

/-- The five span lists built by `has_quantitative` (run.py:123-133). -/
structure QuantDetails where
  money : List String
  duration : List String
  rate : List String
  count : List String
  percent : List String
deriving Repr, DecidableEq

def quantDetails (text : String) : QuantDetails :=
  { money := (reMoneyFinditer text.data).map (fun m => String.mk m.g0),
    duration := (reFinditer matchDurationAt text.data).map String.mk,
    rate := (reFinditer matchRateAt text.data).map String.mk,
    count := (reFinditer matchCountAt text.data).map String.mk,
    percent := (reFinditer matchPercentAt text.data).map String.mk }

/-- `has_quantitative`'s boolean: money OR duration OR rate OR count OR
percent is non-empty. -/
def hasQuantitative (text : String) : Bool :=
  let d := quantDetails text
  !d.money.isEmpty || !d.duration.isEmpty || !d.rate.isEmpty || !d.count.isEmpty ||
    !d.percent.isEmpty

/-- `score_comment` (run.py:135-166), split into its five point sources;
each operates on `text = body.lower()`. -/
def sellingPoints (text : List Char) : Int := if anyCueIn text KEYWORDS_SELL then 2 else 0

def agentPoints (text : List Char) : Int := if anyCueIn text KEYWORDS_AGENT then 2 else 0

def moneyMentionPoints (text : List Char) : Int :=
  let money := reMoneyFinditer text
  if money.isEmpty then 0 else min 3 (money.length : Int)

def marketHintPoints (text : List Char) : Int :=
  if (MARKET_HINTS.filter (fun m => containsSub text m.data)).isEmpty then 0 else 1

def narrativePoints (text : List Char) : Int :=
  if anyCueIn text [" we ", " i ", " my ", " our ", "case study", "story"] then 1 else 0

def scoreComment (body : String) : Int :=
  let text := lowerStr body.data
  sellingPoints text + agentPoints text + moneyMentionPoints text +
    marketHintPoints text + narrativePoints text

/-- `details["money_spans"]` of `score_comment`. -/
def moneySpans (body : String) : List String :=
  (reMoneyFinditer (lowerStr body.data)).map (fun m => String.mk m.g0)

/-! ## `run.py` — `normalize_money` and `extract_best_money` -/

/-- `round(v * 100)` with Python's round-half-to-even, stated on the
numerator/denominator of the exact value (the callers only pass the
non-negative amounts this pipeline produces). -/
def roundHE100 (v : Rat) : Int :=
  let n := v.num * 100
  let d := (v.den : Int)
  let q := n / d
  let r := n % d
  if 2 * r < d then q else if d < 2 * r then q + 1 else if q % 2 = 0 then q else q + 1

/-- `str(round(val, 2))` for the non-negative non-integers this pipeline
produces (Python's shortest-repr printing drops a trailing zero digit but
always keeps one decimal, e.g. `1.5`, `1.0`, `1.23`). -/
def fmtFloat2 (v : Rat) : List Char :=
  let n := (roundHE100 v).toNat
  let ip := Nat.toDigits 10 (n / 100)
  let fr := n % 100
  if fr % 10 = 0 then ip ++ '.' :: Nat.toDigits 10 (fr / 10)
  else ip ++ '.' :: (Nat.toDigits 10 (fr / 10) ++ Nat.toDigits 10 (fr % 10))

/-- `str(int(val))` / `str(round(val, 2))` selected by `val.is_integer()`. -/
def fmtMoneyVal (v : Rat) : List Char :=
  if v.den = 1 then Nat.toDigits 10 v.num.toNat else fmtFloat2 v

/-- The `k`/`m`/`thousand` magnitude multiplier applied by both
`normalize_money` and `extract_best_money` (run.py:180-183, 204-207):
note that a `b`/`B` suffix gets no multiplier. -/
def applyMoneySuffix (suffix : List Char) (val : Rat) : Rat :=
  if !suffix.isEmpty ∧ (lowerStr suffix).head? = some 'm' then ratScaleNat val 1000000
  else if !suffix.isEmpty ∧
      ((lowerStr suffix).head? = some 'k' ∨ containsSub (lowerStr suffix) "thousand".data) then
    ratScaleNat val 1000
  else val

/-- `normalize_money` (run.py:168-187).  `none` models Python `None` (no
`RE_MONEY` match in the token); when the numeric literal does not parse as a
float the function returns the token itself unchanged. -/
def normalizeMoney (token : String) : Option String :=
  match searchMoneyAux (lowerStr token.data) with
  | none => none
  | some m =>
    let num := (m.number.filter (fun c => c ≠ ',')).filter (fun c => c ≠ ' ')
    match pyFloat num with
    | none => some token
    | some val0 =>
      let val := applyMoneySuffix m.suffix val0
      let base := m.currency ++ fmtMoneyVal val
      let base :=
        if m.per.isEmpty then base
        else base ++ ' ' :: pyStrip (m.per.filter (fun c => c ≠ '/'))
      some (String.mk base)

/-- The value a token contributes inside `extract_best_money`'s loop
(run.py:195-207): `none` when the token is skipped by `continue` (no match,
or unparsable numeric literal). -/
def moneyTokVal (tok : String) : Option Rat :=
  match searchMoneyAux (lowerStr tok.data) with
  | none => none
  | some m =>
    let num := (m.number.filter (fun c => c ≠ ',')).filter (fun c => c ≠ ' ')
    match pyFloat num with
    | none => none
    | some val => some (applyMoneySuffix m.suffix val)

/-- `extract_best_money` (run.py:189-211): fold over the spans keeping the
strictly largest parsed value (first occurrence wins ties), then normalize
the winning token. -/
def extractBestMoney (spans : List String) : Option String :=
  if spans.isEmpty then none
  else
    let best := spans.foldl
      (fun acc tok =>
        match moneyTokVal tok with
        | none => acc
        | some v => if acc.2 < v then (some tok, v) else acc)
      ((none : Option String), mkRat (-1) 1)
    match best.1 with
    | some b => normalizeMoney b
    | none => none

/-! ## `scrape_reddit_agents.py` — `REVENUE_PATTERNS`

(scrape_reddit_agents.py:69-85)
`(?P<currency>[$€£]?)\s*(?P<amount>\d{1,3}(?:[.,]\d{3})*(?:[.,]\d+)?|\d+(?:[.,]\d+)?)\s*(?P<mult>[kKmM])?\s*(?P<unit>(?:/|\bper\s+|p/)?\s*(?:d(?:ay)?|jour|j|w(?:k|eek)?|semaine|sem|mo(?:nth)?|month|mois|m|y(?:r|ear)?|an|année|ans))?`
(`re.VERBOSE`, case-sensitive).  The `amount` group is `parseNumberGroup`
above.  In the unit alternation, `mo(?:nth)?` shadows the later literals
`month` and `mois` (a text `"mois"` captures just `"mo"`), and `an` shadows
`année` and `ans`; the shadowed branches are kept in place as dead
alternatives. -/

/-- A match of `REVENUE_PATTERNS` with its named groups.  `currency` can
be empty (the group is `[$€£]?`, which participates with an empty string);
`mult` empty models group `None`; `unit` is an `Option` because
`extract_evidence` passes `m.group("unit")` (which can be `None`) around. -/
structure RevMatch where
  g0 : List Char
  currency : List Char
  amount : List Char
  mult : List Char
  unit : Option (List Char)
deriving Repr, DecidableEq

/-- The keyword alternation of the `unit` group, in pattern order with the
greedy inner optionals expanded. -/
def revKw (s : List Char) : Option (List Char) :=
  if "day".data.isPrefixOf s then some "day".data
  else if "d".data.isPrefixOf s then some "d".data
  else if "jour".data.isPrefixOf s then some "jour".data
  else if "j".data.isPrefixOf s then some "j".data
  else if "wk".data.isPrefixOf s then some "wk".data
  else if "week".data.isPrefixOf s then some "week".data
  else if "w".data.isPrefixOf s then some "w".data
  else if "semaine".data.isPrefixOf s then some "semaine".data
  else if "sem".data.isPrefixOf s then some "sem".data
  else if "month".data.isPrefixOf s then some "month".data
  else if "mo".data.isPrefixOf s then some "mo".data
  else if "mois".data.isPrefixOf s then some "mois".data
  else if "m".data.isPrefixOf s then some "m".data
  else if "yr".data.isPrefixOf s then some "yr".data
  else if "year".data.isPrefixOf s then some "year".data
  else if "y".data.isPrefixOf s then some "y".data
  else if "an".data.isPrefixOf s then some "an".data
  else if "année".data.isPrefixOf s then some "année".data
  else if "ans".data.isPrefixOf s then some "ans".data
  else none

/-- The `unit` group `(?:/|\bper\s+|p/)?\s*(?:keywords)`.  `prevWord` says
whether the character immediately before `s` is a word character (for the
`\b` in `\bper\s+`).  Prefix alternatives are tried in pattern order, each
falling through to the next when the keywords fail afterwards. -/
def parseRevUnit (prevWord : Bool) (s : List Char) : Option (List Char) :=
  let try1 : Option (List Char) :=
    match s with
    | '/' :: rest =>
      let w := countWs rest
      (revKw (rest.drop w)).map (fun k => '/' :: (rest.take w ++ k))
    | _ => none
  match try1 with
  | some u => some u
  | none =>
    let try2 : Option (List Char) :=
      if !prevWord ∧ "per".data.isPrefixOf s ∧ 1 ≤ countWs (s.drop 3) then
        let w := countWs (s.drop 3)
        (revKw (s.drop (3 + w))).map (fun k => "per".data ++ ((s.drop 3).take w ++ k))
      else none
    match try2 with
    | some u => some u
    | none =>
      let try3 : Option (List Char) :=
        if "p/".data.isPrefixOf s then
          let w := countWs (s.drop 2)
          (revKw (s.drop (2 + w))).map (fun k => "p/".data ++ ((s.drop 2).take w ++ k))
        else none
      match try3 with
      | some u => some u
      | none =>
        let w := countWs s
        (revKw (s.drop w)).map (fun k => s.take w ++ k)

/-- Attempt to match `REVENUE_PATTERNS` at the start of `s`.  Because the
empty-able currency group is followed by `\s*`, a match may begin on
whitespace preceding a digit.  Fails only when no `amount` group is found. -/
def matchRevHere (s : List Char) : Option RevMatch :=
  let cur : List Char :=
    match s with
    | c :: _ => if isCurSym c then [c] else []
    | [] => []
  let pre := cur.length + countWs (s.drop cur.length)
  match parseNumberGroup (s.drop pre) with
  | none => none
  | some amt =>
    let p1 := pre + amt.length
    let w1 := countWs (s.drop p1)
    let mult : List Char :=
      match s.drop (p1 + w1) with
      | c :: _ => if c = 'k' ∨ c = 'K' ∨ c = 'm' ∨ c = 'M' then [c] else []
      | [] => []
    let p2 := p1 + w1 + mult.length
    let w2 := countWs (s.drop p2)
    let prevW :=
      match s.drop (p2 + w2 - 1) with
      | c :: _ => isPyWord c
      | [] => false
    let unit := parseRevUnit prevW (s.drop (p2 + w2))
    some { g0 := s.take (p2 + w2 + (unit.getD []).length), currency := cur, amount := amt,
           mult := mult, unit := unit }

/-- `REVENUE_PATTERNS.search` (leftmost successful position). -/
def searchRevAux : List Char → Option RevMatch
  | [] => none
  | c :: cs =>
    match matchRevHere (c :: cs) with
    | some m => some m
    | none => searchRevAux cs

def searchRevenue (s : String) : Option RevMatch := searchRevAux s.data

/-! ## `scrape_reddit_agents.py` — vocabularies and parsing helpers -/

def CURRENCY_MAP : List (String × String) := [("€", "EUR"), ("$", "USD"), ("£", "GBP")]

def CURRENCY_CODES : List String := ["eur", "usd", "gbp", "€", "$", "£"]

def SERVICE_CUES : List String :=
  ["openai", "assistants api", "gpt-4", "gpt-4o", "anthropic", "claude",
   "cohere", "langchain", "llamaindex", "crewai", "autogen", "openagents",
   "flowise", "n8n", "zapier", "make.com", "make (integromat)", "relevance ai",
   "agentops", "vercel ai sdk", "modal", "bedrock", "vertex ai", "hugging face",
   "groq", "ollama"]

def NICHE_PIVOTS : List String :=
  ["for ", "pour ", "to help ", "serving ", "targeting ",
   "for helping ", "aider ", "auprès des ", "with "]

def SUCCESS_CUES : List String :=
  ["paying customer", "paying customers", "mrr", "arr", "profitable",
   "sold", "closed", "booked", "recurring", "retain", "retainer",
   "works well", "working well", "it works", "fonctionne", "ça marche",
   "clients payent", "clients payants"]

def DOUBT_CUES : List String :=
  ["anyone making", "anyone here", "how to", "question", "help",
   "struggling", "trying", "explore", "exploring", "idea", "idée",
   "en cours", "hésite", "tester", "tests", "proof of concept", "poc"]

def FAIL_CUES : List String :=
  ["failed", "no sales", "can't monetize", "cannot monetize", "didn't sell",
   "aucune vente", "pas de vente", "impossible à monétiser", "échec"]

def APPROX_CUES : List String :=
  ["~", "≈", "about", "around", "approx", "approximately", "environ", "roughly", "presque"]

/-- `_text_has_any` (scrape_reddit_agents.py:197-199). -/
def textHasAny (text : String) (cues : List String) : Bool :=
  anyCueIn (lowerStr text.data) cues

/-- `_has_currency_code` (scrape_reddit_agents.py:201-203). -/
def hasCurrencyCode (text : String) : Bool :=
  anyCueIn (lowerStr text.data) CURRENCY_CODES

/-- Index of the last occurrence of character `c` (Python `s.rfind(c)`). -/
def lastIdxOf (s : List Char) (c : Char) : Option Nat :=
  (pyFind s.reverse [c]).map (fun i => s.length - 1 - i)

/-- `_to_float_amount` (scrape_reddit_agents.py:131-146): strip, delete
spaces and `’`, turn `˙` into `.`; with both `,` and `.` present the
rightmost of the two is the decimal separator and every separator left of it
is deleted; a lone `,` becomes `.`; then `float(...)`, with a parse failure
returned as `none`. -/
def toFloatAmount (amountStr : String) : Option Rat :=
  if amountStr = "" then none
  else
    let s0 := pyStrip amountStr.data
    let s1 := ((s0.filter (fun c => c ≠ ' ')).filter (fun c => c ≠ '’')).map
      (fun c => if c = '˙' then '.' else c)
    let s2 :=
      if s1.contains ',' ∧ s1.contains '.' then
        let last := max ((lastIdxOf s1 ',').getD 0) ((lastIdxOf s1 '.').getD 0)
        (s1.take last).filter (fun c => !isSepCh c) ++ '.' :: s1.drop (last + 1)
      else if s1.contains ',' ∧ ¬s1.contains '.' then
        s1.map (fun c => if c = ',' then '.' else c)
      else s1
    pyFloat s2

/-- The inline period detection of `normalize_revenue`
(scrape_reddit_agents.py:166-174), applied to
`unit = (m.group("unit") or "").lower().replace(" ", "")`.
Note its priority order is month, then week, then day, then year. -/
def revenuePeriodOfUnit (unit : List Char) : Option String :=
  if ["mo", "month", "mois", "/m"].any (fun u => containsSub unit u.data) then some "month"
  else if ["wk", "w", "week", "semaine", "sem"].any (fun u => containsSub unit u.data) then
    some "week"
  else if ["d", "day", "jour", "j"].any (fun u => containsSub unit u.data) then some "day"
  else if ["yr", "y", "year", "an", "année", "ans"].any (fun u => containsSub unit u.data) then
    some "year"
  else none

/-- `normalize_revenue` (scrape_reddit_agents.py:148-176): returns the tuple
`(amount, currency, period, original)`. -/
def normalizeRevenue (m : RevMatch) : Option Rat × Option String × Option String × String :=
  let original := String.mk (pyStrip m.g0)
  let currencySym := String.mk m.currency
  let currency :=
    if currencySym = "" then none
    else (CURRENCY_MAP.find? (fun p => p.1 = currencySym)).map (fun p => p.2)
  let amountRaw := String.mk (pyStrip m.amount)
  let mult := lowerStr m.mult
  let unit := lowerStr ((m.unit.getD []).filter (fun c => c ≠ ' '))
  match toFloatAmount amountRaw with
  | none => (none, currency, none, original)
  | some a0 =>
    let amount :=
      if mult = ['k'] then ratScaleNat a0 1000
      else if mult = ['m'] then ratScaleNat a0 1000000
      else a0
    (some amount, currency, revenuePeriodOfUnit unit, original)

/-- `_detect_period` (scrape_reddit_agents.py:205-216): priority order
day, week, month, year, each category checking fragments of the (lowercased)
unit text or phrases of the (lowercased) full text. -/
def detectPeriod (unitText : Option String) (fullText : String) : Option String :=
  let u := lowerStr (unitText.getD "").data
  let ft := lowerStr fullText.data
  if ["d", "day", "jour", "j"].any (fun k => containsSub u k.data) ∨
      [" per day", "/d", "par jour"].any (fun k => containsSub ft k.data) then some "day"
  else if ["wk", "w", "week", "semaine", "sem"].any (fun k => containsSub u k.data) ∨
      [" per week", "/wk", "/w", "par semaine"].any (fun k => containsSub ft k.data) then
    some "week"
  else if ["mo", "month", "mois", "m"].any (fun k => containsSub u k.data) ∨
      [" per month", "/mo", "/m", "par mois"].any (fun k => containsSub ft k.data) then
    some "month"
  else if ["yr", "y", "year", "an", "année", "ans"].any (fun k => containsSub u k.data) ∨
      [" per year", "/yr", "/y", "par an", "par année"].any (fun k => containsSub ft k.data) then
    some "year"
  else none

/-! ## `scrape_reddit_agents.py` — scoring components -/

/-- `RANGE_PATTERN` (scrape_reddit_agents.py:117) is
`\b\d+(?:[.,]?\d+)?\s*[-–]\s*\d+(?:[.,]?\d+)?\b` and is only used as a
boolean search.  `rangeNumEnds s p` enumerates every end position reachable
by `\d+(?:[.,]?\d+)?` from `p` (all the engine's backtracking choices: any
non-empty digit prefix, optionally followed by one separator and any further
non-empty digit prefix; a separator-less second `\d+` only re-joins the same
digit run). -/
def rangeNumEnds (s : List Char) (p : Nat) : List Nat :=
  let d := digitRun (s.drop p)
  if d = 0 then []
  else
    let base := (List.range d).map (fun k => p + k + 1)
    let extra :=
      match s.drop (p + d) with
      | c :: rest =>
        if isSepCh c then
          (List.range (digitRun rest)).map (fun j => p + d + 1 + j + 1)
        else []
      | [] => []
    base ++ extra

/-- Is the character at index `i` a word character? (`false` past the end.) -/
def wordAt (s : List Char) (i : Nat) : Bool :=
  match s.drop i with
  | c :: _ => isPyWord c
  | [] => false

/-- A `RANGE_PATTERN` match starting at index `i` exists. -/
def rangeAt (s : List Char) (i : Nat) : Bool :=
  (decide (i = 0) || !wordAt s (i - 1)) &&
    (rangeNumEnds s i).any (fun q =>
      let r := q + countWs (s.drop q)
      match s.drop r with
      | c :: _ =>
        (c = '-' ∨ c = '–') &&
          (let r2 := r + 1 + countWs (s.drop (r + 1))
           (rangeNumEnds s r2).any (fun e => !wordAt s e))
      | [] => false)

/-- `bool(RANGE_PATTERN.search(s))`. -/
def rangeSearchB (s : List Char) : Bool := (List.range s.length).any (fun i => rangeAt s i)

/-- `_precision_points` (scrape_reddit_agents.py:218-223). -/
def precisionPoints (body revText : String) : Int :=
  let approx := textHasAny revText APPROX_CUES ∨ textHasAny body APPROX_CUES
  let ranged := rangeSearchB revText.data ∨ rangeSearchB body.data
  if approx ∨ ranged then 5 else 10

/-- `_period_points` (scrape_reddit_agents.py:225-234): `5 if period else 0`
is Python truthiness, so `Some ""` would also score 0. -/
def periodPoints (period : Option String) : Int :=
  if period = some "week" then 15
  else if period = some "month" then 15
  else if period = some "day" then 15
  else if period = some "year" then 15
  else if period.getD "" ≠ "" then 5
  else 0

/-- `find_niche` (scrape_reddit_agents.py:184-195): pivots are tried in list
order; the first pivot found (preceded by a space, case-insensitively)
yields up to 12 following words, cut at the first punctuation character and
stripped. -/
def isNichePunct (c : Char) : Bool :=
  c = '.' ∨ c = '?' ∨ c = '!' ∨ c = ';' ∨ c = ':' ∨ c = '(' ∨ c = ')' ∨ c = '[' ∨
    c = ']' ∨ c = '\x7b' ∨ c = '\x7d' ∨ c = '|' ∨ c = '/' ∨ c = '\\'

def findNicheGo (t tl : List Char) : List String → String
  | [] => ""
  | p :: rest =>
    match pyFind tl (' ' :: p.data) with
    | some idx =>
      let start := idx + 1 + p.data.length
      let words := pySplitWs (t.drop start)
      let snippet := List.intercalate [' '] (words.take 12)
      String.mk (pyStrip (snippet.takeWhile (fun c => !isNichePunct c)))
    | none => findNicheGo t tl rest

def findNiche (text : String) : String :=
  let t := ' ' :: ((text.data.map (fun c => if c = '\n' then ' ' else c)) ++ [' '])
  findNicheGo t (lowerStr t) NICHE_PIVOTS

/-- The company-name pattern of `_market_points`
(scrape_reddit_agents.py:243-245):
`\b[A-Z][A-Za-z0-9&.\-]{2,}\b(?:\s(?:Inc|LLC|Ltd|SAS|GmbH|SARL|AG)\b)`,
used only as a boolean search; the greedy `{2,}` with its backtracking is
enumerated as a search over token lengths. -/
def isCompanyClass (c : Char) : Bool :=
  ('A' ≤ c ∧ c ≤ 'Z') ∨ ('a' ≤ c ∧ c ≤ 'z') ∨ ('0' ≤ c ∧ c ≤ '9') ∨ c = '&' ∨ c = '.' ∨ c = '-'

def companySuffixes : List String := ["Inc", "LLC", "Ltd", "SAS", "GmbH", "SARL", "AG"]

def companySuffixAt (s : List Char) (p : Nat) : Bool :=
  companySuffixes.any (fun suf => suf.data.isPrefixOf (s.drop p) && !wordAt s (p + suf.data.length))

def companyAt (s : List Char) (i : Nat) : Bool :=
  (decide (i = 0) || !wordAt s (i - 1)) &&
    (match s.drop i with
     | c :: _ => decide ('A' ≤ c ∧ c ≤ 'Z')
     | [] => false) &&
    (let cr := countLeading isCompanyClass (s.drop (i + 1))
     (List.range cr).any (fun j =>
       let e := i + 3 + j
       decide (j + 2 ≤ cr) && wordAt s (e - 1) &&
         (match s.drop e with
          | c :: _ => isPyWs c && companySuffixAt s (e + 1)
          | [] => false)))

def companySearchB (s : List Char) : Bool := (List.range s.length).any (fun i => companyAt s i)

/-- The `client_cues` list local to `_market_points`
(scrape_reddit_agents.py:239-242). -/
def clientCues : List String :=
  ["client", "customer", "customers", "clients", "smb", "realtor", "realtors",
   "law firm", "lawyer", "attorney", "restaurant", "ecom", "saas", "agency", "agencies"]

/-- `_market_points` (scrape_reddit_agents.py:236-247). -/
def marketPoints (body : String) : Int :=
  let pts : Int := if findNiche body ≠ "" then 10 else 0
  let named := textHasAny body clientCues ∨ companySearchB body.data
  pts + (if named then 10 else 0)

/-- `_stack_points` (scrape_reddit_agents.py:249-252). -/
def stackPoints (body title : String) : Int :=
  let merged := lowerStr (body.data ++ ' ' :: title.data)
  let hits := SERVICE_CUES.filter (fun s => containsSub merged s.data)
  min 15 (3 * (hits.eraseDups.length : Int))

/-- `_sentiment_points` (scrape_reddit_agents.py:254-262): failure cues give
the `-999` veto marker; otherwise success 10, doubt 5, default 7. -/
def sentimentPoints (body : String) : Int :=
  let t := String.mk (lowerStr body.data)
  if textHasAny t FAIL_CUES then -999
  else if textHasAny t SUCCESS_CUES then 10
  else if textHasAny t DOUBT_CUES then 5
  else 7

/-- `compute_score_v2` (scrape_reddit_agents.py:264-281).  `revMatchText`
stands for `rev_match.group(0)`, the only thing the function reads from the
match object. -/
def computeScoreV2 (body submissionTitle revMatchText : String) (currency : Option String)
    (unit : Option String) : Int :=
  let base : Int := 25
  let currencyPts : Int := if currency.getD "" ≠ "" ∨ hasCurrencyCode body then 5 else 0
  let periodPts := periodPoints (detectPeriod unit body)
  let precisionPts := precisionPoints body revMatchText
  let revenuePts := base + currencyPts + periodPts + precisionPts
  let marketPts := marketPoints body
  let stackPts := stackPoints body submissionTitle
  let sent := sentimentPoints body
  if sent < 0 then 0
  else max 0 (min 100 (revenuePts + marketPts + stackPts + sent))

/-! ## `scrape_reddit_agents.py` — evidence extraction, dedup, ranking -/

/-- The `Evidence` dataclass (scrape_reddit_agents.py:285-293). -/
structure Evidence where
  subreddit : String
  thread_title : String
  thread_url : String
  comment_url : String
  author : String
  post : String
  score : Int
deriving Repr, DecidableEq

/-- The comment attributes `extract_evidence` reads (`body`, `permalink`,
`author`; a deleted author is `None`). -/
structure RComment where
  body : String
  permalink : String
  author : Option String
deriving Repr, DecidableEq

/-- `extract_evidence` (scrape_reddit_agents.py:295-317): empty body or no
`REVENUE_PATTERNS` match produce no record.  Of `normalize_revenue`'s tuple
only `currency` is used further; `value` and `period` are discarded. -/
def extractEvidence (subredditName submissionTitle submissionPermalink : String)
    (c : RComment) : Option Evidence :=
  if c.body = "" then none
  else
    match searchRevenue c.body with
    | none => none
    | some m =>
      let nr := normalizeRevenue m
      let currency := nr.2.1
      let unit := (m.unit).map String.mk
      let score := computeScoreV2 c.body submissionTitle (String.mk m.g0) currency unit
      some { subreddit := subredditName, thread_title := submissionTitle,
             thread_url := "https://www.reddit.com" ++ submissionPermalink,
             comment_url := "https://www.reddit.com" ++ c.permalink,
             author := c.author.getD "[deleted]",
             post := String.mk (pyStrip c.body.data),
             score := score }

/-- Insertion into a Python dict modelled as an ordered association list:
an existing key keeps its position and gets the new value, a fresh key is
appended (insertion order). -/
def pyDictInsert (d : List (String × Evidence)) (k : String) (v : Evidence) :
    List (String × Evidence) :=
  match d with
  | [] => [(k, v)]
  | (k0, v0) :: rest => if k0 = k then (k0, v) :: rest else (k0, v0) :: pyDictInsert rest k v

/-- `{r.comment_url: r for r in rows}.values()` (scrape_reddit_agents.py:598):
keep one record per comment URL, last seen wins, first-occurrence order. -/
def dedupByCommentUrl (rows : List Evidence) : List Evidence :=
  (rows.foldl (fun d r => pyDictInsert d r.comment_url r) []).map Prod.snd

/-- Code-point lexicographic `<` on strings (Python string comparison). -/
def strLt : List Char → List Char → Bool
  | [], [] => false
  | [], _ :: _ => true
  | _ :: _, [] => false
  | a :: xs, b :: ys => if a.toNat < b.toNat then true else if b.toNat < a.toNat then false
      else strLt xs ys

/-- Python `<` on the sort key `(-score, subreddit.lower(),
thread_title.lower())` (scrape_reddit_agents.py:602). -/
def keyLt (a b : Evidence) : Bool :=
  if -a.score < -b.score then true
  else if -b.score < -a.score then false
  else
    let sa := lowerStr a.subreddit.data
    let sb := lowerStr b.subreddit.data
    if strLt sa sb then true
    else if strLt sb sa then false
    else strLt (lowerStr a.thread_title.data) (lowerStr b.thread_title.data)

/-- "`a` may precede `b`" for the stable sort: `¬(key b < key a)`. -/
def keyLe (a b : Evidence) : Bool := !keyLt b a

/-- `uniq.sort(key=lambda r: (-r.score, r.subreddit.lower(),
r.thread_title.lower()))` — Python's sort is stable, so it is extensionally
the stable `mergeSort` by `keyLe`. -/
def sortRanking (rows : List Evidence) : List Evidence := rows.mergeSort keyLe

/-- The minimum-score gate of the Strategy-A pipeline
(`if score < args.min_score: continue`, run.py:299-300). -/
def minScoreFilter (minScore : Int) (rows : List Evidence) : List Evidence :=
  rows.filter (fun r => !(r.score < minScore))

/-- The Selection & Ranking step assembled from the cited code: the
minimum-score filter (run.py:299), then dedup by comment identity and the
stable sort (scrape_reddit_agents.py:598-602). -/
def selectionRanking (minScore : Int) (rows : List Evidence) : List Evidence :=
  sortRanking (dedupByCommentUrl (minScoreFilter minScore rows))

/-! ## Definitions supporting the claim statements -/

/-- The sort key of the ranking step, as a value:
`(-score, subreddit.lower(), thread_title.lower())`. -/
def sortKey (e : Evidence) : Int × List Char × List Char :=
  (-e.score, lowerStr e.subreddit.data, lowerStr e.thread_title.data)

/-- The `unit`-group captures `REVENUE_PATTERNS` can produce, after
`normalize_revenue`'s `.replace(" ", "")` (ASCII-space whitespace): an
optional prefix `/`, `per` (its mandatory whitespace removed) or `p/`,
then one of the keyword captures.  Keywords shadowed by an earlier
alternative (`mois`, `année`, `ans` — captured as `mo` / `an`) are not
listed because they are never produced. -/
def revUnitKeywords : List String :=
  ["d", "day", "jour", "j", "w", "wk", "week", "semaine", "sem", "mo", "month", "m",
   "y", "yr", "year", "an"]

def revUnitPrefixes : List String := ["", "/", "per", "p/"]

def revProducibleUnits : List String :=
  revUnitPrefixes.flatMap (fun p => revUnitKeywords.map (fun k => p ++ k))

/-- Variant B normalization of a token: the `amount` component of
`normalize_revenue` applied to `REVENUE_PATTERNS.search(token)` (`none`
when there is no match, or the literal does not parse). -/
def revenueAmount (token : String) : Option Rat :=
  match searchRevenue token with
  | none => none
  | some m => (normalizeRevenue m).1

/-- Two fetched versions of the same comment (same permalink, different
bodies) for the deduplication scenario: the stale record... -/
def evStale : Evidence :=
  { subreddit := "SaaS", thread_title := "Monetizing agents",
    thread_url := "https://www.reddit.com/r/SaaS/t1",
    comment_url := "https://www.reddit.com/r/SaaS/t1/c9",
    author := "alice", post := "old body, $5k/mo", score := 80 }

/-- ... and the fresh record fetched later for the same permalink. -/
def evFresh : Evidence :=
  { subreddit := "SaaS", thread_title := "Monetizing agents",
    thread_url := "https://www.reddit.com/r/SaaS/t1",
    comment_url := "https://www.reddit.com/r/SaaS/t1/c9",
    author := "alice", post := "new body, $6k/mo", score := 75 }

/-! ## General lemmas -/

theorem char_toNat_ofNat {n : Nat} (h : n < 0xD800) : (Char.ofNat n).toNat = n := by
  have hv : n.isValidChar := Or.inl h
  rw [Char.ofNat, dif_pos hv]
  simp [Char.ofNatAux, Char.toNat, UInt32.toNat]

theorem pyLower_idem (c : Char) : pyLower (pyLower c) = pyLower c := by
  unfold pyLower
  by_cases h1 : 65 ≤ c.toNat ∧ c.toNat ≤ 90
  · rw [if_pos h1]
    have ht : (Char.ofNat (c.toNat + 32)).toNat = c.toNat + 32 :=
      char_toNat_ofNat (by omega)
    rw [if_neg (by omega), if_neg (by omega)]
  · rw [if_neg h1]
    by_cases h2 : 0xC0 ≤ c.toNat ∧ c.toNat ≤ 0xDE ∧ c.toNat ≠ 0xD7
    · rw [if_pos h2]
      have ht : (Char.ofNat (c.toNat + 32)).toNat = c.toNat + 32 :=
        char_toNat_ofNat (by omega)
      rw [if_neg (by omega), if_neg (by omega)]
    · rw [if_neg h2, if_neg h1, if_neg h2]

theorem lowerStr_idem (s : List Char) : lowerStr (lowerStr s) = lowerStr s := by
  simp [lowerStr, Function.comp, pyLower_idem]

theorem textHasAny_mk_lower (body : List Char) (cues : List String) :
    textHasAny (String.mk (lowerStr body)) cues = anyCueIn (lowerStr body) cues := by
  simp [textHasAny, lowerStr_idem]

/-! ## Lemmas on the Strategy B scoring components -/

theorem sentimentPoints_eq (body : String) :
    sentimentPoints body =
      if anyCueIn (lowerStr body.data) FAIL_CUES then -999
      else if anyCueIn (lowerStr body.data) SUCCESS_CUES then 10
      else if anyCueIn (lowerStr body.data) DOUBT_CUES then 5
      else 7 := by
  unfold sentimentPoints
  simp only [textHasAny_mk_lower]

theorem computeScore_fail_zero (body title revText : String) (currency unit : Option String)
    (h : textHasAny body FAIL_CUES = true) :
    computeScoreV2 body title revText currency unit = 0 := by
  have hs : sentimentPoints body = -999 := by
    rw [sentimentPoints_eq, if_pos]
    exact h
  unfold computeScoreV2
  rw [hs]
  norm_num

theorem precisionPoints_bounds (body revText : String) :
    5 ≤ precisionPoints body revText ∧ precisionPoints body revText ≤ 10 := by
  simp only [precisionPoints]
  split <;> omega

theorem periodPoints_bounds (p : Option String) :
    0 ≤ periodPoints p ∧ periodPoints p ≤ 15 := by
  simp only [periodPoints]
  split_ifs <;> omega

theorem marketPoints_bounds (body : String) :
    0 ≤ marketPoints body ∧ marketPoints body ≤ 20 := by
  simp only [marketPoints]
  split_ifs <;> omega

theorem stackPoints_bounds (body title : String) :
    0 ≤ stackPoints body title ∧ stackPoints body title ≤ 15 := by
  simp only [stackPoints]
  have h : (0 : Int) ≤
      ((SERVICE_CUES.filter
        (fun s => containsSub (lowerStr (body.data ++ ' ' :: title.data)) s.data)).eraseDups.length : Int) :=
    Int.natCast_nonneg _
  omega

theorem sentimentPoints_no_fail (body : String) (h : textHasAny body FAIL_CUES = false) :
    5 ≤ sentimentPoints body ∧ sentimentPoints body ≤ 10 := by
  rw [sentimentPoints_eq]
  rw [textHasAny] at h
  rw [if_neg (by simp [h])]
  split_ifs <;> omega

theorem computeScore_no_fail_bounds (body title revText : String)
    (currency unit : Option String) (h : textHasAny body FAIL_CUES = false) :
    35 ≤ computeScoreV2 body title revText currency unit ∧
      computeScoreV2 body title revText currency unit ≤ 100 := by
  have hsent := sentimentPoints_no_fail body h
  have hprec := precisionPoints_bounds body revText
  have hper := periodPoints_bounds (detectPeriod unit body)
  have hmkt := marketPoints_bounds body
  have hstk := stackPoints_bounds body title
  unfold computeScoreV2
  rw [if_neg (by omega)]
  split_ifs <;> omega

/-! ## Claim C1 -/

/-- C1: for every comment body containing at least one failure-sentiment cue
(a string of `FAIL_CUES` occurring case-insensitively as a substring), the
Strategy B score computed by `compute_score_v2` is exactly 0, regardless of
the thread title, matched revenue text, currency or unit argument. -/
theorem C1_failure_cue_forces_zero (body title revText : String)
    (currency unit : Option String) (h : textHasAny body FAIL_CUES = true) :
    computeScoreV2 body title revText currency unit = 0 :=
  computeScore_fail_zero body title revText currency unit h

theorem C1_failure_cue_forces_zero_witness :
    textHasAny "We pivoted but it failed, even at $20k/mo with openai for dentists"
      FAIL_CUES = true ∧
    computeScoreV2 "We pivoted but it failed, even at $20k/mo with openai for dentists"
      "Monetizing AI agents" "$20k/mo" (some "USD") (some "/mo") = 0 :=
  ⟨by decide,
   C1_failure_cue_forces_zero _ _ _ _ _ (by decide)⟩

/-! ## Claim C10 -/

/-- C10: the value returned by `compute_score_v2` is 0 exactly on the
failure-sentiment veto, and otherwise lies between 35 and 100: without a
failure cue the total is at least base 25 + minimum precision 5 + minimum
non-failure sentiment 5, and the final clamp caps it at 100 — so no
Strategy B score is ever strictly between 0 and 35. -/
theorem C10_score_zero_or_35_to_100 (body title revText : String)
    (currency unit : Option String) :
    (computeScoreV2 body title revText currency unit = 0 ↔
      textHasAny body FAIL_CUES = true) ∧
    (textHasAny body FAIL_CUES = false →
      35 ≤ computeScoreV2 body title revText currency unit ∧
        computeScoreV2 body title revText currency unit ≤ 100) := by
  constructor
  · constructor
    · intro h0
      by_contra hf
      have hff : textHasAny body FAIL_CUES = false := by
        simpa using hf
      have := computeScore_no_fail_bounds body title revText currency unit hff
      omega
    · exact computeScore_fail_zero body title revText currency unit
  · exact computeScore_no_fail_bounds body title revText currency unit

theorem C10_score_zero_or_35_to_100_witness :
    35 ≤ computeScoreV2 "just a number 42" "title" "42" none none ∧
      computeScoreV2 "just a number 42" "title" "42" none none ≤ 100 :=
  (C10_score_zero_or_35_to_100 "just a number 42" "title" "42" none none).2 (by decide)

/-! ## Claim C4 -/

/-- C4: period resolution scans the unit suffix for day/week/month/year
keyword fragments and the first matching category wins in the priority order
day → week → month → year.  Part 1 states this for `_detect_period` (which
also accepts full-text phrases per category, so the lower-priority cases
additionally assume the earlier full-text phrase checks fail); part 2 checks
the same priority discipline for the inline period resolution of
`normalize_revenue` on every producible (space-stripped) unit capture. -/
theorem C4_period_priority_day_week_month_year :
    (∀ (unitText : Option String) (fullText : String),
      (["d", "day", "jour", "j"].any
          (fun k => containsSub (lowerStr (unitText.getD "").data) k.data) = true →
        detectPeriod unitText fullText = some "day") ∧
      (["d", "day", "jour", "j"].any
          (fun k => containsSub (lowerStr (unitText.getD "").data) k.data) = false →
       [" per day", "/d", "par jour"].any
          (fun k => containsSub (lowerStr fullText.data) k.data) = false →
       ["wk", "w", "week", "semaine", "sem"].any
          (fun k => containsSub (lowerStr (unitText.getD "").data) k.data) = true →
        detectPeriod unitText fullText = some "week") ∧
      (["d", "day", "jour", "j"].any
          (fun k => containsSub (lowerStr (unitText.getD "").data) k.data) = false →
       [" per day", "/d", "par jour"].any
          (fun k => containsSub (lowerStr fullText.data) k.data) = false →
       ["wk", "w", "week", "semaine", "sem"].any
          (fun k => containsSub (lowerStr (unitText.getD "").data) k.data) = false →
       [" per week", "/wk", "/w", "par semaine"].any
          (fun k => containsSub (lowerStr fullText.data) k.data) = false →
       ["mo", "month", "mois", "m"].any
          (fun k => containsSub (lowerStr (unitText.getD "").data) k.data) = true →
        detectPeriod unitText fullText = some "month") ∧
      (["d", "day", "jour", "j"].any
          (fun k => containsSub (lowerStr (unitText.getD "").data) k.data) = false →
       [" per day", "/d", "par jour"].any
          (fun k => containsSub (lowerStr fullText.data) k.data) = false →
       ["wk", "w", "week", "semaine", "sem"].any
          (fun k => containsSub (lowerStr (unitText.getD "").data) k.data) = false →
       [" per week", "/wk", "/w", "par semaine"].any
          (fun k => containsSub (lowerStr fullText.data) k.data) = false →
       ["mo", "month", "mois", "m"].any
          (fun k => containsSub (lowerStr (unitText.getD "").data) k.data) = false →
       [" per month", "/mo", "/m", "par mois"].any
          (fun k => containsSub (lowerStr fullText.data) k.data) = false →
       ["yr", "y", "year", "an", "année", "ans"].any
          (fun k => containsSub (lowerStr (unitText.getD "").data) k.data) = true →
        detectPeriod unitText fullText = some "year")) ∧
    (∀ u ∈ revProducibleUnits,
      (["d", "day", "jour", "j"].any (fun k => containsSub u.data k.data) = true →
        revenuePeriodOfUnit u.data = some "day") ∧
      (["d", "day", "jour", "j"].any (fun k => containsSub u.data k.data) = false →
       ["wk", "w", "week", "semaine", "sem"].any (fun k => containsSub u.data k.data) = true →
        revenuePeriodOfUnit u.data = some "week") ∧
      (["d", "day", "jour", "j"].any (fun k => containsSub u.data k.data) = false →
       ["wk", "w", "week", "semaine", "sem"].any (fun k => containsSub u.data k.data) = false →
       ["mo", "month", "mois", "/m"].any (fun k => containsSub u.data k.data) = true →
        revenuePeriodOfUnit u.data = some "month") ∧
      (["d", "day", "jour", "j"].any (fun k => containsSub u.data k.data) = false →
       ["wk", "w", "week", "semaine", "sem"].any (fun k => containsSub u.data k.data) = false →
       ["mo", "month", "mois", "/m"].any (fun k => containsSub u.data k.data) = false →
       ["yr", "y", "year", "an", "année", "ans"].any (fun k => containsSub u.data k.data) = true →
        revenuePeriodOfUnit u.data = some "year")) := by
  constructor
  · intro ut ft
    refine ⟨?_, ?_, ?_, ?_⟩
    · intro hd
      unfold detectPeriod
      rw [if_pos (Or.inl hd)]
    · intro hd hdf hw
      unfold detectPeriod
      rw [if_neg (by simp [hd, hdf]), if_pos (Or.inl hw)]
    · intro hd hdf hw hwf hm
      unfold detectPeriod
      rw [if_neg (by simp [hd, hdf]), if_neg (by simp [hw, hwf]), if_pos (Or.inl hm)]
    · intro hd hdf hw hwf hm hmf hy
      unfold detectPeriod
      rw [if_neg (by simp [hd, hdf]), if_neg (by simp [hw, hwf]),
        if_neg (by simp [hm, hmf]), if_pos (Or.inl hy)]
  · decide

theorem C4_period_priority_witness :
    detectPeriod (some "/day") "earns well" = some "day" ∧
    revenuePeriodOfUnit "/day".data = some "day" :=
  ⟨((C4_period_priority_day_week_month_year.1 (some "/day") "earns well").1 (by decide)),
   ((C4_period_priority_day_week_month_year.2 "/day" (by decide)).1 (by decide))⟩

/-! ## Claim C8 -/

/-- C8: the Strategy A score of `score_comment` is exactly the sum of its
five point sources — +2 selling keywords, +2 agent keywords,
+min(3, number of `RE_MONEY` matches) when any is present, +1 market hint,
+1 narrative cue — and is therefore always between 0 and 9 inclusive
(no clamp is applied to it). -/
theorem C8_scoreComment_decomposition_and_bounds (body : String) :
    scoreComment body =
      sellingPoints (lowerStr body.data) + agentPoints (lowerStr body.data) +
        moneyMentionPoints (lowerStr body.data) + marketHintPoints (lowerStr body.data) +
        narrativePoints (lowerStr body.data) ∧
    0 ≤ scoreComment body ∧ scoreComment body ≤ 9 := by
  refine ⟨rfl, ?_, ?_⟩ <;>
  · unfold scoreComment sellingPoints agentPoints moneyMentionPoints marketHintPoints
      narrativePoints
    have := Int.natCast_nonneg (reMoneyFinditer (lowerStr body.data)).length
    dsimp only
    split_ifs <;> omega

/-! ## Claim C2 (corrected) -/

/-- C2 counterexample: normalization is not invariant across equivalent
representations of 1200.  Variant B (`normalize_revenue`) maps `"$1,200"`
to amount 6/5 = 1.2 (a lone comma is read as a decimal separator), and
variant A (`normalize_money`) maps `"$1200.00"` to `"$120"` (the `number`
group of `RE_MONEY` captures only `"120"` of `"1200.00"`). -/
theorem C2_counterexample_normalization_not_invariant :
    revenueAmount "$1,200" = some (mkRat 6 5) ∧ mkRat 6 5 ≠ 1200 ∧
    normalizeMoney "$1200.00" = some "$120" ∧ "$120" ≠ "$1200" := by decide

/-- C2 amended: `"$1,200"` normalizes to 1200 in variant A, and `"1.2k"`
normalizes to 1200 in both variants; but `"$1200.00"` normalizes to 120 in
both variants (its `number` group captures only `"120"`), and `"$1,200"`
normalizes to 1.2 in variant B (lone comma read as a decimal separator). -/
theorem C2_amended_equivalent_representations :
    normalizeMoney "$1,200" = some "$1200" ∧
    normalizeMoney "1.2k" = some "1200" ∧
    revenueAmount "1.2k" = some 1200 ∧
    normalizeMoney "$1200.00" = some "$120" ∧
    revenueAmount "$1200.00" = some 120 ∧
    revenueAmount "$1,200" = some (mkRat 6 5) := by decide

/-! ## Claim C3 (corrected) -/

/-- C3 counterexample: in `normalize_money` (variant A) a lone comma is not
a decimal separator — `"1,5"` normalizes to `"15"`, not 1.5 (commas are
stripped as thousands grouping). -/
theorem C3_counterexample_comma_not_decimal_in_variant_A :
    normalizeMoney "1,5" = some "15" ∧ "15" ≠ "1.5" := by decide

/-- C3 amended: the rightmost-separator rule and comma-as-decimal rule hold
for `_to_float_amount` (variant B): `"1,5"` parses to 1.5, `"1,200"` to 1.2,
and with both separators present the rightmost one is the decimal separator
whichever it is (`"1.234,56"` and `"1,234.56"` both parse to 1234.56).
In `normalize_money` (variant A) the comma is instead always stripped as a
thousands separator and `.` is the decimal separator, so `"1,5"` gives 15
and `"1,200"` gives 1200. -/
theorem C3_amended_separator_rules :
    toFloatAmount "1,5" = some (mkRat 3 2) ∧
    toFloatAmount "1,200" = some (mkRat 6 5) ∧
    toFloatAmount "1.234,56" = some (mkRat 123456 100) ∧
    toFloatAmount "1,234.56" = some (mkRat 123456 100) ∧
    toFloatAmount "1.234.567" = none ∧
    normalizeMoney "1,5" = some "15" ∧
    normalizeMoney "1,200" = some "1200" := by decide

/-! ## Claim C5 (corrected) -/

/-- C5 counterexample: on a money match whose numeric literal cannot be
parsed (`"1.234.567"`: two dots survive comma-stripping, so `float` raises),
`normalize_money` does not signal a recognition failure — it returns the
raw token itself as a `some` value. -/
theorem C5_counterexample_no_failure_signal :
    moneyTokVal "1.234.567" = none ∧
    normalizeMoney "1.234.567" = some "1.234.567" := by decide

/-- C5 amended: when a money span's numeric literal cannot be parsed,
`normalize_money` returns the raw token unchanged rather than signalling a
failure; `extract_best_money`, however, skips such spans — they contribute
no monetary evidence, scanning continues with the remaining spans, and the
comment is never aborted. -/
theorem C5_amended_unparsable_span_skipped :
    (∀ (tok : String) (spans : List String), moneyTokVal tok = none →
      extractBestMoney (tok :: spans) = extractBestMoney spans) ∧
    normalizeMoney "1.234.567" = some "1.234.567" ∧
    extractBestMoney ["1.234.567"] = none ∧
    extractBestMoney ["1.234.567", "$50"] = some "$50" := by
  refine ⟨?_, by decide, by decide, by decide⟩
  intro tok spans h
  cases spans with
  | nil => simp [extractBestMoney, h]
  | cons a rest => simp [extractBestMoney, h]

theorem C5_amended_unparsable_span_skipped_witness :
    extractBestMoney ["1.234.567", "$50"] = extractBestMoney ["$50"] :=
  C5_amended_unparsable_span_skipped.1 "1.234.567" ["$50"] (by decide)

/-! ## Claim C6 — deduplication lemmas -/

theorem pyDictInsert_find_self (d : List (String × Evidence)) (k : String) (v : Evidence) :
    (pyDictInsert d k v).find? (fun p => decide (p.1 = k)) = some (k, v) := by
  induction d with
  | nil => simp [pyDictInsert]
  | cons p rest ih =>
    obtain ⟨k0, v0⟩ := p
    by_cases h : k0 = k
    · subst h
      simp [pyDictInsert]
    · simp only [pyDictInsert, if_neg h]
      rw [List.find?_cons_of_neg _ (by simp [h])]
      exact ih

theorem pyDictInsert_find_other (d : List (String × Evidence)) (k k' : String) (v : Evidence)
    (h : k' ≠ k) :
    (pyDictInsert d k v).find? (fun p => decide (p.1 = k')) =
      d.find? (fun p => decide (p.1 = k')) := by
  induction d with
  | nil => simp [pyDictInsert, Ne.symm h]
  | cons p rest ih =>
    obtain ⟨k0, v0⟩ := p
    by_cases h0 : k0 = k
    · subst h0
      simp only [pyDictInsert, if_true]
      rw [List.find?_cons_of_neg _ (by simp [Ne.symm h]),
        List.find?_cons_of_neg _ (by simp [Ne.symm h])]
    · simp only [pyDictInsert, if_neg h0]
      by_cases h1 : k0 = k'
      · rw [List.find?_cons_of_pos _ (by simp [h1]), List.find?_cons_of_pos _ (by simp [h1])]
      · rw [List.find?_cons_of_neg _ (by simp [h1]), List.find?_cons_of_neg _ (by simp [h1])]
        exact ih

/-- The dict built by the dedup fold maps each key to the *last* row with
that comment URL (`d` is the accumulator already built). -/
theorem dedupFold_find (rows : List Evidence) (d : List (String × Evidence)) (k : String) :
    (rows.foldl (fun d r => pyDictInsert d r.comment_url r) d).find?
        (fun p => decide (p.1 = k)) =
      ((rows.filter (fun e => decide (e.comment_url = k))).getLast?.map
        (fun e => (k, e))).or (d.find? (fun p => decide (p.1 = k))) := by
  induction rows generalizing d with
  | nil => simp
  | cons r rest ih =>
    rw [List.foldl_cons, ih]
    by_cases hk : r.comment_url = k
    · rw [List.filter_cons_of_pos (by simp [hk])]
      rw [List.getLast?_cons]
      cases hrest : (rest.filter (fun e => decide (e.comment_url = k))).getLast? with
      | some e => simp [hrest]
      | none =>
        simp only [hrest, Option.getD_none, Option.map_some, Option.none_or]
        rw [← hk, pyDictInsert_find_self]
        simp [hk]
    · rw [List.filter_cons_of_neg (by simp [hk])]
      rw [pyDictInsert_find_other _ _ _ _ (fun h => hk h.symm)]

theorem pyDictInsert_keys (d : List (String × Evidence)) (k : String) (v : Evidence) :
    (pyDictInsert d k v).map Prod.fst =
      if k ∈ d.map Prod.fst then d.map Prod.fst else d.map Prod.fst ++ [k] := by
  induction d with
  | nil => simp [pyDictInsert]
  | cons p rest ih =>
    obtain ⟨k0, v0⟩ := p
    by_cases h : k0 = k
    · subst h
      simp [pyDictInsert]
    · simp only [pyDictInsert, if_neg h, List.map_cons, ih]
      by_cases hm : k ∈ rest.map Prod.fst
      · rw [if_pos hm, if_pos (by simp [hm])]
      · rw [if_neg hm, if_neg (by simp [hm, Ne.symm h])]
        simp

theorem pyDictInsert_keys_nodup (d : List (String × Evidence)) (k : String) (v : Evidence)
    (h : (d.map Prod.fst).Nodup) : ((pyDictInsert d k v).map Prod.fst).Nodup := by
  rw [pyDictInsert_keys]
  by_cases hm : k ∈ d.map Prod.fst
  · rwa [if_pos hm]
  · rw [if_neg hm, List.nodup_append]
    refine ⟨h, List.nodup_singleton _, ?_⟩
    intro a ha hb
    rw [List.mem_singleton] at hb
    subst hb
    exact hm ha

theorem dedupFold_keys_nodup (rows : List Evidence) (d : List (String × Evidence))
    (h : (d.map Prod.fst).Nodup) :
    (((rows.foldl (fun d r => pyDictInsert d r.comment_url r) d)).map Prod.fst).Nodup := by
  induction rows generalizing d with
  | nil => exact h
  | cons r rest ih => exact ih _ (pyDictInsert_keys_nodup _ _ _ h)

theorem pyDictInsert_wf (d : List (String × Evidence)) (v : Evidence)
    (h : ∀ p ∈ d, p.1 = p.2.comment_url) :
    ∀ p ∈ pyDictInsert d v.comment_url v, p.1 = p.2.comment_url := by
  induction d with
  | nil => simp [pyDictInsert]
  | cons q rest ih =>
    obtain ⟨k0, v0⟩ := q
    by_cases h0 : k0 = v.comment_url
    · subst h0
      simp only [pyDictInsert, if_pos rfl]
      intro p hp
      rcases List.mem_cons.mp hp with rfl | hp
      · rfl
      · exact h p (List.mem_cons_of_mem _ hp)
    · simp only [pyDictInsert, if_neg h0]
      intro p hp
      rcases List.mem_cons.mp hp with rfl | hp
      · exact h (k0, v0) (List.mem_cons_self _ _)
      · exact ih (fun q hq => h q (List.mem_cons_of_mem _ hq)) p hp

theorem dedupFold_wf (rows : List Evidence) (d : List (String × Evidence))
    (h : ∀ p ∈ d, p.1 = p.2.comment_url) :
    ∀ p ∈ rows.foldl (fun d r => pyDictInsert d r.comment_url r) d,
      p.1 = p.2.comment_url := by
  induction rows generalizing d with
  | nil => exact h
  | cons r rest ih => exact ih _ (pyDictInsert_wf d r h)

theorem list_find?_congr {α : Type} (l : List α) (p q : α → Bool)
    (h : ∀ x ∈ l, p x = q x) : l.find? p = l.find? q := by
  induction l with
  | nil => rfl
  | cons a t ih =>
    rw [List.find?_cons, List.find?_cons, h a (List.mem_cons_self _ _)]
    split
    · rfl
    · exact ih fun x hx => h x (List.mem_cons_of_mem _ hx)

/-- The record `dedupByCommentUrl` keeps for a comment URL is the last
record with that URL in the input. -/
theorem dedup_find_last (rows : List Evidence) (k : String) :
    (dedupByCommentUrl rows).find? (fun e => decide (e.comment_url = k)) =
      (rows.filter (fun e => decide (e.comment_url = k))).getLast? := by
  unfold dedupByCommentUrl
  rw [List.find?_map]
  have hwf := dedupFold_wf rows [] (by simp)
  rw [list_find?_congr _ _ (fun p => decide (p.1 = k))
    (fun p hp => by simp [Function.comp, hwf p hp])]
  rw [dedupFold_find rows [] k]
  simp only [List.find?_nil, Option.or_none]
  cases (rows.filter (fun e => decide (e.comment_url = k))).getLast? with
  | none => rfl
  | some e => rfl

theorem dedup_keys_nodup (rows : List Evidence) :
    ((dedupByCommentUrl rows).map (fun e => e.comment_url)).Nodup := by
  unfold dedupByCommentUrl
  rw [List.map_map]
  have hwf := dedupFold_wf rows [] (by simp)
  rw [List.map_congr_left (l := rows.foldl (fun d r => pyDictInsert d r.comment_url r) [])
    (f := (fun e => e.comment_url) ∘ Prod.snd) (g := Prod.fst)
    (fun p hp => by simpa using (hwf p hp).symm)]
  exact dedupFold_keys_nodup rows [] (by simp)

theorem pyDictInsert_mem (d : List (String × Evidence)) (k : String) (v : Evidence) :
    ∀ p ∈ pyDictInsert d k v, p ∈ d ∨ p = (k, v) := by
  induction d with
  | nil => simp [pyDictInsert]
  | cons q rest ih =>
    obtain ⟨k0, v0⟩ := q
    by_cases h0 : k0 = k
    · subst h0
      simp only [pyDictInsert, if_true]
      intro p hp
      rcases List.mem_cons.mp hp with rfl | hp
      · exact Or.inr rfl
      · exact Or.inl (List.mem_cons_of_mem _ hp)
    · simp only [pyDictInsert, if_neg h0]
      intro p hp
      rcases List.mem_cons.mp hp with rfl | hp
      · exact Or.inl (List.mem_cons_self _ _)
      · rcases ih p hp with h | h
        · exact Or.inl (List.mem_cons_of_mem _ h)
        · exact Or.inr h

theorem dedupFold_mem (rows : List Evidence) (d : List (String × Evidence)) :
    ∀ p ∈ rows.foldl (fun d r => pyDictInsert d r.comment_url r) d, p ∈ d ∨ p.2 ∈ rows := by
  induction rows generalizing d with
  | nil => exact fun p hp => Or.inl hp
  | cons r rest ih =>
    intro p hp
    rcases ih (pyDictInsert d r.comment_url r) p hp with h | h
    · rcases pyDictInsert_mem d r.comment_url r p h with h' | h'
      · exact Or.inl h'
      · subst h'
        exact Or.inr (List.mem_cons_self _ _)
    · exact Or.inr (List.mem_cons_of_mem _ h)

/-- Every deduplicated record is one of the input records. -/
theorem dedup_subset (rows : List Evidence) :
    ∀ e ∈ dedupByCommentUrl rows, e ∈ rows := by
  intro e he
  unfold dedupByCommentUrl at he
  rcases List.mem_map.mp he with ⟨p, hp, rfl⟩
  rcases dedupFold_mem rows [] p hp with h | h
  · simp at h
  · exact h

theorem pyDictInsert_fresh (d : List (String × Evidence)) (k : String) (v : Evidence)
    (h : k ∉ d.map Prod.fst) : pyDictInsert d k v = d ++ [(k, v)] := by
  induction d with
  | nil => simp [pyDictInsert]
  | cons q rest ih =>
    obtain ⟨k0, v0⟩ := q
    simp only [List.map_cons, List.mem_cons] at h
    push_neg at h
    simp only [pyDictInsert, if_neg (fun hh : k0 = k => h.1 hh.symm), List.cons_append]
    rw [ih h.2]

theorem dedupFold_fresh (l : List Evidence) (d : List (String × Evidence))
    (hfresh : ∀ e ∈ l, e.comment_url ∉ d.map Prod.fst)
    (hnd : (l.map (fun e => e.comment_url)).Nodup) :
    l.foldl (fun d r => pyDictInsert d r.comment_url r) d =
      d ++ l.map (fun e => (e.comment_url, e)) := by
  induction l generalizing d with
  | nil => simp
  | cons e rest ih =>
    rw [List.foldl_cons, pyDictInsert_fresh d _ _ (hfresh e (List.mem_cons_self _ _))]
    rw [List.map_cons] at hnd
    have hnd' := List.nodup_cons.mp hnd
    rw [ih (d ++ [(e.comment_url, e)])
      (fun x hx => by
        simp only [List.map_append, List.mem_append]
        push_neg
        refine ⟨hfresh x (List.mem_cons_of_mem _ hx), ?_⟩
        simp only [List.map_cons, List.map_nil, List.mem_singleton]
        intro hurl
        exact hnd'.1 (hurl ▸ List.mem_map_of_mem (fun e => e.comment_url) hx))
      hnd'.2]
    simp

/-- On a list whose comment URLs are already distinct (for instance the
output of a previous dedup), `dedupByCommentUrl` is the identity. -/
theorem dedup_id_of_nodup (l : List Evidence)
    (h : (l.map (fun e => e.comment_url)).Nodup) : dedupByCommentUrl l = l := by
  unfold dedupByCommentUrl
  rw [dedupFold_fresh l [] (by simp) h]
  simp only [List.nil_append, List.map_map]
  have : (Prod.snd ∘ fun e : Evidence => (e.comment_url, e)) = id := rfl
  rw [this, List.map_id]

/-! ## Claim C6 -/

/-- C6: deduplication keeps exactly one record per unique comment identity
(the comment URLs of the output are pairwise distinct), and the surviving
record for a URL is the *last* record carrying that URL in the processing
order; in particular for two records with the same permalink and different
bodies the single survivor is the later one. -/
theorem C6_dedup_one_record_last_wins :
    (∀ rows : List Evidence, ((dedupByCommentUrl rows).map (fun e => e.comment_url)).Nodup) ∧
    (∀ (rows : List Evidence) (k : String),
      (dedupByCommentUrl rows).find? (fun e => decide (e.comment_url = k)) =
        (rows.filter (fun e => decide (e.comment_url = k))).getLast?) ∧
    (evStale.comment_url = evFresh.comment_url ∧ evStale.post ≠ evFresh.post ∧
      dedupByCommentUrl [evStale, evFresh] = [evFresh]) :=
  ⟨dedup_keys_nodup, dedup_find_last, by decide, by decide, by decide⟩

/-! ## Claim C7 — ordering lemmas -/

theorem char_eq_of_toNat_eq {a b : Char} (h : a.toNat = b.toNat) : a = b := by
  apply Char.ext
  unfold Char.toNat at h
  exact UInt32.toNat.inj h

theorem strLt_irrefl (xs : List Char) : strLt xs xs = false := by
  induction xs with
  | nil => rfl
  | cons a t ih => simp [strLt, ih]

theorem strLt_asymm (xs ys : List Char) (h : strLt xs ys = true) : strLt ys xs = false := by
  induction xs generalizing ys with
  | nil =>
    cases ys with
    | nil => exact absurd h (by simp [strLt])
    | cons b bs => rfl
  | cons a t ih =>
    cases ys with
    | nil => exact absurd h (by simp [strLt])
    | cons b bs =>
      simp only [strLt] at h ⊢
      by_cases h1 : a.toNat < b.toNat
      · rw [if_neg (by omega), if_pos h1]
      · rw [if_neg h1] at h
        by_cases h2 : b.toNat < a.toNat
        · rw [if_pos h2] at h
          exact absurd h (by simp)
        · rw [if_neg h2] at h
          rw [if_neg h2, if_neg h1]
          exact ih bs h

theorem strLt_trans (xs ys zs : List Char) (h1 : strLt xs ys = true)
    (h2 : strLt ys zs = true) : strLt xs zs = true := by
  induction xs generalizing ys zs with
  | nil =>
    cases ys with
    | nil => exact absurd h1 (by simp [strLt])
    | cons b bs =>
      cases zs with
      | nil => exact absurd h2 (by simp [strLt])
      | cons c cs => rfl
  | cons a t ih =>
    cases ys with
    | nil => exact absurd h1 (by simp [strLt])
    | cons b bs =>
      cases zs with
      | nil => exact absurd h2 (by simp [strLt])
      | cons c cs =>
        simp only [strLt] at h1 h2 ⊢
        by_cases hab : a.toNat < b.toNat
        · by_cases hbc : b.toNat < c.toNat
          · rw [if_pos (by omega)]
          · rw [if_neg hbc] at h2
            by_cases hcb : c.toNat < b.toNat
            · rw [if_pos hcb] at h2
              exact absurd h2 (by simp)
            · have hb : b = c := char_eq_of_toNat_eq (by omega)
              subst hb
              rw [if_pos hab]
        · rw [if_neg hab] at h1
          by_cases hba : b.toNat < a.toNat
          · rw [if_pos hba] at h1
            exact absurd h1 (by simp)
          · have ha : a = b := char_eq_of_toNat_eq (by omega)
            subst ha
            rw [if_neg hab] at h1
            by_cases hac : a.toNat < c.toNat
            · rw [if_pos hac]
            · rw [if_neg hac] at h2 ⊢
              by_cases hca : c.toNat < a.toNat
              · rw [if_pos hca] at h2
                exact absurd h2 (by simp)
              · rw [if_neg hca] at h2 ⊢
                exact ih bs cs h1 h2

theorem strLt_eq_of_not_lt (xs ys : List Char) (h1 : strLt xs ys = false)
    (h2 : strLt ys xs = false) : xs = ys := by
  induction xs generalizing ys with
  | nil =>
    cases ys with
    | nil => rfl
    | cons b bs => exact absurd h1 (by simp [strLt])
  | cons a t ih =>
    cases ys with
    | nil => exact absurd h2 (by simp [strLt])
    | cons b bs =>
      simp only [strLt] at h1 h2
      by_cases hab : a.toNat < b.toNat
      · rw [if_pos hab] at h1
        exact absurd h1 (by simp)
      · by_cases hba : b.toNat < a.toNat
        · rw [if_pos hba] at h2
          exact absurd h2 (by simp)
        · have ha : a = b := char_eq_of_toNat_eq (by omega)
          subst ha
          rw [if_neg hab] at h1 h2
          rw [if_neg hab] at h1 h2
          rw [ih bs h1 h2]

theorem strLt_false_trans (x y z : List Char) (h1 : strLt y x = false)
    (h2 : strLt z y = false) : strLt z x = false := by
  by_cases hzx : strLt z x = true
  · by_cases hyz : strLt y z = true
    · exact absurd (strLt_trans _ _ _ hyz hzx) (by simp [h1])
    · have h : y = z := strLt_eq_of_not_lt y z (by simpa using hyz) h2
      subst h
      exact absurd hzx (by simp [h1])
  · simpa using hzx

theorem keyLt_asymm (a b : Evidence) (h : keyLt a b = true) : keyLt b a = false := by
  unfold keyLt at h ⊢
  by_cases h1 : -a.score < -b.score
  · rw [if_neg (by omega), if_pos h1]
  · rw [if_neg h1] at h
    by_cases h2 : -b.score < -a.score
    · rw [if_pos h2] at h
      exact absurd h (by simp)
    · rw [if_neg h2] at h
      rw [if_neg h2, if_neg h1]
      by_cases h3 : strLt (lowerStr a.subreddit.data) (lowerStr b.subreddit.data) = true
      · rw [if_neg (by simp [strLt_asymm _ _ h3]), if_pos h3]
      · rw [if_neg h3] at h
        by_cases h4 : strLt (lowerStr b.subreddit.data) (lowerStr a.subreddit.data) = true
        · rw [if_pos h4] at h
          exact absurd h (by simp)
        · rw [if_neg h4] at h
          rw [if_neg h4, if_neg h3]
          exact strLt_asymm _ _ h

theorem keyLt_false_trans (a b c : Evidence) (hba : keyLt b a = false)
    (hcb : keyLt c b = false) : keyLt c a = false := by
  unfold keyLt at hba hcb ⊢
  by_cases s1 : -b.score < -a.score
  · rw [if_pos s1] at hba
    exact absurd hba (by simp)
  · rw [if_neg s1] at hba
    by_cases s2 : -c.score < -b.score
    · rw [if_pos s2] at hcb
      exact absurd hcb (by simp)
    · rw [if_neg s2] at hcb
      rw [if_neg (show ¬(-c.score < -a.score) by omega)]
      by_cases s4 : -a.score < -c.score
      · rw [if_pos s4]
      · rw [if_neg s4]
        rw [if_neg (show ¬(-a.score < -b.score) by omega)] at hba
        rw [if_neg (show ¬(-b.score < -c.score) by omega)] at hcb
        by_cases t1 : strLt (lowerStr b.subreddit.data) (lowerStr a.subreddit.data) = true
        · rw [if_pos t1] at hba
          exact absurd hba (by simp)
        · rw [if_neg t1] at hba
          by_cases t2 : strLt (lowerStr c.subreddit.data) (lowerStr b.subreddit.data) = true
          · rw [if_pos t2] at hcb
            exact absurd hcb (by simp)
          · rw [if_neg t2] at hcb
            have t1' : strLt (lowerStr b.subreddit.data) (lowerStr a.subreddit.data) = false := by
              simpa using t1
            have t2' : strLt (lowerStr c.subreddit.data) (lowerStr b.subreddit.data) = false := by
              simpa using t2
            have t6 : strLt (lowerStr c.subreddit.data) (lowerStr a.subreddit.data) = false :=
              strLt_false_trans _ _ _ t1' t2'
            rw [if_neg (by simp [t6])]
            by_cases t7 : strLt (lowerStr a.subreddit.data) (lowerStr c.subreddit.data) = true
            · rw [if_pos t7]
            · rw [if_neg t7]
              have hac : lowerStr a.subreddit.data = lowerStr c.subreddit.data :=
                strLt_eq_of_not_lt _ _ (by simpa using t7) t6
              have t1c : strLt (lowerStr b.subreddit.data) (lowerStr c.subreddit.data) = false := by
                rw [← hac]
                exact t1'
              have hbc : lowerStr b.subreddit.data = lowerStr c.subreddit.data :=
                strLt_eq_of_not_lt _ _ t1c t2'
              have hab : lowerStr a.subreddit.data = lowerStr b.subreddit.data := by
                rw [hac, hbc]
              rw [if_neg (show ¬strLt (lowerStr a.subreddit.data)
                  (lowerStr b.subreddit.data) = true by
                rw [hab]
                simp [strLt_irrefl])] at hba
              rw [if_neg (show ¬strLt (lowerStr b.subreddit.data)
                  (lowerStr c.subreddit.data) = true by simp [t1c])] at hcb
              exact strLt_false_trans _ _ _ hba hcb

theorem keyLe_trans (a b c : Evidence) (h1 : keyLe a b = true) (h2 : keyLe b c = true) :
    keyLe a c = true := by
  unfold keyLe at h1 h2 ⊢
  rw [Bool.not_eq_true'] at h1 h2 ⊢
  exact keyLt_false_trans a b c h1 h2

theorem keyLe_total_bool (a b : Evidence) : (keyLe a b || keyLe b a) = true := by
  unfold keyLe
  cases h : keyLt b a with
  | false => simp
  | true => simp [keyLt_asymm _ _ h]

theorem keyLe_of_sortKey_eq (a b : Evidence) (h : sortKey a = sortKey b) : keyLe a b = true := by
  unfold sortKey at h
  rw [Prod.ext_iff] at h
  obtain ⟨h1, h23⟩ := h
  rw [Prod.ext_iff] at h23
  obtain ⟨h2, h3⟩ := h23
  simp only at h1 h2 h3
  unfold keyLe keyLt
  rw [if_neg (by omega), if_neg (by omega)]
  rw [h2, h3]
  simp [strLt_irrefl]

/-- The ranking sort leaves a list with pairwise `keyLe` keys unchanged and
always produces such a list. -/
theorem sortRanking_sorted (l : List Evidence) : (sortRanking l).Pairwise (keyLe · ·) :=
  List.sorted_mergeSort (fun a b c => keyLe_trans a b c) keyLe_total_bool l

theorem sortRanking_of_sorted (l : List Evidence) (h : l.Pairwise (keyLe · ·)) :
    sortRanking l = l :=
  List.mergeSort_of_sorted h

/-- Idempotence of the Selection & Ranking step. -/
theorem selectionRanking_idem (minScore : Int) (rows : List Evidence) :
    selectionRanking minScore (selectionRanking minScore rows) =
      selectionRanking minScore rows := by
  set L := selectionRanking minScore rows with hL
  have hmemL : ∀ e ∈ L, e ∈ minScoreFilter minScore rows := by
    intro e he
    rw [hL] at he
    unfold selectionRanking sortRanking at he
    rw [List.mem_mergeSort] at he
    exact dedup_subset _ e he
  have hfilter : minScoreFilter minScore L = L := by
    unfold minScoreFilter
    rw [List.filter_eq_self]
    intro e he
    have h2 := hmemL e he
    unfold minScoreFilter at h2
    exact (List.mem_filter.mp h2).2
  have hnodup : (L.map (fun e => e.comment_url)).Nodup := by
    rw [hL]
    unfold selectionRanking sortRanking
    have hperm := List.mergeSort_perm
      (dedupByCommentUrl (minScoreFilter minScore rows)) keyLe
    exact ((hperm.map (fun e => e.comment_url)).nodup_iff).mpr
      (dedup_keys_nodup (minScoreFilter minScore rows))
  have hdedup : dedupByCommentUrl L = L := dedup_id_of_nodup L hnodup
  have hsorted : L.Pairwise (keyLe · ·) := by
    rw [hL]
    exact sortRanking_sorted _
  calc selectionRanking minScore L
      = sortRanking (dedupByCommentUrl (minScoreFilter minScore L)) := rfl
    _ = sortRanking (dedupByCommentUrl L) := by rw [hfilter]
    _ = sortRanking L := by rw [hdedup]
    _ = L := sortRanking_of_sorted L hsorted

/-- Stability of the ranking sort: records with the same sort key keep
their input order (filtering either list to one exact key gives the same
sequence). -/
theorem sortRanking_stable (l : List Evidence) (κ : Int × List Char × List Char) :
    (sortRanking l).filter (fun e => decide (sortKey e = κ)) =
      l.filter (fun e => decide (sortKey e = κ)) := by
  set p : Evidence → Bool := fun e => decide (sortKey e = κ) with hp
  have hkey : ∀ e ∈ l.filter p, sortKey e = κ := by
    intro e he
    have h2 := (List.mem_filter.mp he).2
    rw [hp] at h2
    exact of_decide_eq_true h2
  have hpw : (l.filter p).Pairwise (keyLe · ·) := by
    apply List.pairwise_of_forall_mem_list
    intro a ha b hb
    exact keyLe_of_sortKey_eq a b (by rw [hkey a ha, hkey b hb])
  have hst : List.Sublist (l.filter p) (l.mergeSort keyLe) :=
    List.sublist_mergeSort (fun a b c => keyLe_trans a b c) keyLe_total_bool hpw
      (List.filter_sublist l)
  have hsub2 : List.Sublist (l.filter p) ((l.mergeSort keyLe).filter p) := by
    have h2 := hst.filter p
    rwa [List.filter_eq_self.mpr (fun a ha => (List.mem_filter.mp ha).2)] at h2
  have hperm : List.Perm ((l.mergeSort keyLe).filter p) (l.filter p) :=
    (List.mergeSort_perm l keyLe).filter p
  exact (hsub2.eq_of_length hperm.length_eq.symm).symm

/-! ## Claim C7 -/

/-- C7: the Selection & Ranking step (minimum-score filter, dedup by comment
identity, stable sort by descending score then case-insensitive subreddit
and thread title) is idempotent — applying it to its own output returns the
identical ordered sequence; the comparison it sorts by is total; and the
sort is stable (records with exactly equal sort keys keep their input
order). -/
theorem C7_selection_ranking_idempotent_stable_total :
    (∀ (minScore : Int) (rows : List Evidence),
      selectionRanking minScore (selectionRanking minScore rows) =
        selectionRanking minScore rows) ∧
    (∀ a b : Evidence, keyLe a b = true ∨ keyLe b a = true) ∧
    (∀ (l : List Evidence) (κ : Int × List Char × List Char),
      (sortRanking l).filter (fun e => decide (sortKey e = κ)) =
        l.filter (fun e => decide (sortKey e = κ))) := by
  refine ⟨selectionRanking_idem, ?_, sortRanking_stable⟩
  intro a b
  have := keyLe_total_bool a b
  rcases Bool.or_eq_true_iff.mp this with h | h
  · exact Or.inl h
  · exact Or.inr h

/-! ## Claim C9 — matcher lemmas -/

theorem isCurSym_eq_false_of_digit {c : Char} (h : isPyDigit c = true) :
    isCurSym c = false := by
  by_contra hc
  rw [Bool.not_eq_false] at hc
  unfold isCurSym at hc
  rcases of_decide_eq_true hc with rfl | rfl | rfl <;> exact absurd h (by decide)

theorem isPyWs_eq_false_of_digit {c : Char} (h : isPyDigit c = true) :
    isPyWs c = false := by
  by_contra hc
  rw [Bool.not_eq_false] at hc
  unfold isPyWs at hc
  rcases of_decide_eq_true hc with rfl | rfl | rfl | rfl | rfl | rfl <;>
    exact absurd h (by decide)

theorem digitRun_cons_pos {c : Char} (cs : List Char) (h : isPyDigit c = true) :
    digitRun (c :: cs) = digitRun cs + 1 := by
  simp [digitRun, countLeading, h]

/-- The shared `number`/`amount` group matches at any digit. -/
theorem parseNumberGroup_isSome {c : Char} (cs : List Char) (h : isPyDigit c = true) :
    (parseNumberGroup (c :: cs)).isSome = true := by
  unfold parseNumberGroup
  dsimp only
  rw [digitRun_cons_pos cs h, if_neg (by omega)]
  rfl

/-- `REVENUE_PATTERNS` matches at any digit (currency and everything after
the amount is optional). -/
theorem matchRevHere_isSome {c : Char} (cs : List Char) (h : isPyDigit c = true) :
    (matchRevHere (c :: cs)).isSome = true := by
  obtain ⟨num, hnum⟩ := Option.isSome_iff_exists.mp (parseNumberGroup_isSome cs h)
  unfold matchRevHere
  simp [isCurSym_eq_false_of_digit h, countWs, countLeading,
    isPyWs_eq_false_of_digit h, hnum]

/-- `RE_MONEY` matches at any digit. -/
theorem matchMoneyHere_isSome {c : Char} (cs : List Char) (h : isPyDigit c = true) :
    (matchMoneyHere (c :: cs)).isSome = true := by
  obtain ⟨num, hnum⟩ := Option.isSome_iff_exists.mp (parseNumberGroup_isSome cs h)
  unfold matchMoneyHere
  simp [isCurSym_eq_false_of_digit h, hnum]

/-- `REVENUE_PATTERNS.search` succeeds on any text containing a digit. -/
theorem searchRevAux_isSome (s : List Char) (h : ∃ c ∈ s, isPyDigit c = true) :
    (searchRevAux s).isSome = true := by
  induction s with
  | nil => simp at h
  | cons c cs ih =>
    unfold searchRevAux
    cases hm : matchRevHere (c :: cs) with
    | some m => simp
    | none =>
      rcases h with ⟨d, hd, hdig⟩
      rcases List.mem_cons.mp hd with rfl | hmem
      · have h2 := matchRevHere_isSome cs hdig
        rw [hm] at h2
        exact absurd h2 (by simp)
      · exact ih ⟨d, hmem, hdig⟩

/-- `RE_MONEY.finditer` is non-empty on any text containing a digit
(given enough fuel, as supplied by `reMoneyFinditer`). -/
theorem moneyFindAux_ne_nil (fuel : Nat) (s : List Char) (hf : s.length < fuel)
    (h : ∃ c ∈ s, isPyDigit c = true) : moneyFindAux fuel s ≠ [] := by
  induction fuel generalizing s with
  | zero => omega
  | succ f ih =>
    cases s with
    | nil => simp at h
    | cons c cs =>
      unfold moneyFindAux
      cases hm : matchMoneyHere (c :: cs) with
      | some m => simp
      | none =>
        rcases h with ⟨d, hd, hdig⟩
        rcases List.mem_cons.mp hd with rfl | hmem
        · have h2 := matchMoneyHere_isSome cs hdig
          rw [hm] at h2
          exact absurd h2 (by simp)
        · exact ih cs (by simp at hf ⊢; omega) ⟨d, hmem, hdig⟩

theorem quantDetails_money_ne_nil (body : String)
    (h : ∃ c ∈ body.data, isPyDigit c = true) : (quantDetails body).money ≠ [] := by
  unfold quantDetails reMoneyFinditer
  dsimp only
  intro hc
  rw [List.map_eq_nil_iff] at hc
  exact moneyFindAux_ne_nil _ _ (by omega) h hc

theorem hasQuantitative_of_money (body : String) (h : (quantDetails body).money ≠ []) :
    hasQuantitative body = true := by
  unfold hasQuantitative
  dsimp only
  cases hm : (quantDetails body).money with
  | nil => exact absurd hm h
  | cons a t => simp [hm]

/-! ## Claim C9 -/

/-- C9: a comment qualifies only with numeric evidence.  Strategy B's
`extract_evidence` produces a record iff the body is non-empty and
`REVENUE_PATTERNS` finds a match; Strategy A's gate also accepts a
duration, rate, count or percent match; and because the money patterns'
numeric-literal group matches bare numbers, any body containing a digit
has a money match under both patterns (the money category is a superset of
plain numbers), hence passes both gates' numeric requirement. -/
theorem C9_numeric_evidence_gates :
    (∀ (sub title perm : String) (c : RComment),
      (extractEvidence sub title perm c).isSome = true ↔
        (c.body ≠ "" ∧ (searchRevenue c.body).isSome = true)) ∧
    (∀ body : String, (∃ ch ∈ body.data, isPyDigit ch = true) →
      (searchRevenue body).isSome = true ∧ (quantDetails body).money ≠ [] ∧
        hasQuantitative body = true) ∧
    (∀ body : String,
      (quantDetails body).duration ≠ [] ∨ (quantDetails body).rate ≠ [] ∨
        (quantDetails body).count ≠ [] ∨ (quantDetails body).percent ≠ [] →
      hasQuantitative body = true) := by
  refine ⟨?_, ?_, ?_⟩
  · intro sub title perm c
    unfold extractEvidence
    by_cases hb : c.body = ""
    · simp [hb]
    · rw [if_neg hb]
      cases hm : searchRevenue c.body with
      | none => simp [hb, hm]
      | some m => simp [hb, hm]
  · intro body hex
    refine ⟨searchRevAux_isSome body.data hex, quantDetails_money_ne_nil body hex,
      hasQuantitative_of_money body (quantDetails_money_ne_nil body hex)⟩
  · intro body h
    unfold hasQuantitative
    dsimp only
    rcases h with h | h | h | h <;> simp <;> tauto

theorem C9_numeric_evidence_gates_witness :
    (extractEvidence "AI_Agents" "thread" "/p" ⟨"we made 5", "/c", none⟩).isSome = true ∧
    hasQuantitative "we now have 7 clients" = true :=
  ⟨(C9_numeric_evidence_gates.1 "AI_Agents" "thread" "/p" ⟨"we made 5", "/c", none⟩).mpr
    ⟨by decide, by decide⟩,
   (C9_numeric_evidence_gates.2.1 "we now have 7 clients"
     ⟨'7', by decide, by decide⟩).2.2⟩
